import Mathlib

/-!
# Pong: a shallow embedding of `src/main.js`

The class `PongGame` of `src/main.js` keeps all of its state in one mutable
object.  Here that object is the record `PongGame α`, and every method is a
function from the record before the call to the record after it.

* JavaScript numbers are read as exact numbers of a linearly ordered field
  `α` (run on `ℚ`, reasoned about on `ℝ` where trigonometry matters); rounding,
  infinities and NaN are outside this reading.
* What a method obtains from the host is an argument of the function:
  the two `Math.random()` draws of `resetBall`, the timestamp of
  `performance.now()`, the container's `clientWidth`, and the three members of
  `Math` that `resetBall` uses (`JSMath`).
* The canvas is an element of the host: its `width` and `height` are
  `unsigned long` attributes, and what the program reads from them is what
  the element stores for the number assigned (`unsignedLong`).
* `draw`, `updateScore`, the visibility of the start button and of the
  instructions, and `requestAnimationFrame` write no field of the game state
  and are left out.
-/

namespace Pong

/-- The members of the host object `Math` used by the program. -/
structure JSMath (α : Type) where
  cos : α → α
  sin : α → α
  PI : α

/-- The two fields of the canvas element the program reads and writes. -/
structure Canvas (α : Type) where
  width : α
  height : α

/-- The object `this.ball`. -/
structure Ball (α : Type) where
  x : α
  y : α
  velocityX : α
  velocityY : α
  speed : α

/-- One of `this.paddles.left`, `this.paddles.right`. -/
structure Paddle (α : Type) where
  x : α
  y : α
  velocity : α

/-- The object `this.paddles`. -/
structure Paddles (α : Type) where
  left : Paddle α
  right : Paddle α

/-- The object `this.scores`. -/
structure Scores (α : Type) where
  left : α
  right : α

/-- The mutable fields of a `PongGame` instance. -/
structure PongGame (α : Type) where
  canvas : Canvas α
  isPlaying : Bool
  isPaused : Bool
  scores : Scores α
  lastTime : α
  ball : Ball α
  paddles : Paddles α

section Defs

variable {α : Type} [LinearOrderedField α]

/-- The constant `this.PADDLE_WIDTH = 10`. -/
def PADDLE_WIDTH : α := 10

/-- The constant `this.PADDLE_HEIGHT = 100`. -/
def PADDLE_HEIGHT : α := 100

/-- The constant `this.BALL_SIZE = 10`. -/
def BALL_SIZE : α := 10

/-- The constant `this.PADDLE_SPEED = 0.4`. -/
def PADDLE_SPEED : α := 0.4

/-- The constant `this.INITIAL_BALL_SPEED = 0.3`. -/
def INITIAL_BALL_SPEED : α := 0.3

/-- The constant `this.BALL_SPEED_INCREASE = 1.1`. -/
def BALL_SPEED_INCREASE : α := 1.1

/-- The method `resetBall()`, lines 85-96; `r1` and `r2` are the results of the two calls
of `Math.random()`, in the order of the calls. -/
def resetBall (M : JSMath α) (g : PongGame α) (r1 r2 : α) : PongGame α :=
  let x := g.canvas.width / 2
  let y := g.canvas.height / 2
  let speed : α := INITIAL_BALL_SPEED
  let angle := (r1 * M.PI / 4) - M.PI / 8
  let direction : α := if r2 < 0.5 then 1 else -1
  { g with
    ball :=
      { x := x
        y := y
        speed := speed
        velocityX := M.cos angle * speed * direction
        velocityY := M.sin angle * speed } }

/-- The method `resetPositions()`, lines 98-104. -/
def resetPositions (M : JSMath α) (g : PongGame α) (r1 r2 : α) : PongGame α :=
  let y := (g.canvas.height - PADDLE_HEIGHT) / 2
  resetBall M
    { g with
      paddles :=
        { left := { g.paddles.left with y := y, velocity := 0 }
          right := { g.paddles.right with y := y, velocity := 0 } } }
    r1 r2

/-- The number read from the attribute `width` or `height` of the canvas
element after the number `v` is assigned to it.  The attribute is an
`unsigned long`: `v` is truncated towards zero and reduced modulo `2^32`, and
the element keeps the result if it is at most 2147483647 and falls back to the
attribute's default value otherwise. -/
def unsignedLong [FloorRing α] (v default : α) : α :=
  let n : ℤ := (if 0 ≤ v then ⌊v⌋ else ⌈v⌉) % 4294967296
  if n ≤ 2147483647 then (n : α) else default

/-- The method `resizeCanvas()`, lines 67-83; `clientWidth` is the width of the element
`game-container`.  The defaults of the canvas attributes `width` and `height`
are 300 and 150. -/
def resizeCanvas [FloorRing α] (M : JSMath α) (g : PongGame α) (clientWidth r1 r2 : α) :
    PongGame α :=
  let width := clientWidth
  let height := width * (9 / 16)
  let canvas : Canvas α :=
    { width := unsignedLong width 300, height := unsignedLong height 150 }
  let g1 : PongGame α :=
    { g with
      canvas := canvas
      paddles :=
        { left := { g.paddles.left with x := PADDLE_WIDTH * 2 }
          right := { g.paddles.right with x := canvas.width - PADDLE_WIDTH * 3 } } }
  if !g1.isPlaying then resetPositions M g1 r1 r2 else g1

/-- The method `start()`, lines 106-118; `now` is the value of `performance.now()`. -/
def start (M : JSMath α) (g : PongGame α) (now r1 r2 : α) : PongGame α :=
  if !g.isPlaying then
    let g1 : PongGame α := { g with isPlaying := true, scores := { left := 0, right := 0 } }
    let g2 := resetPositions M g1 r1 r2
    { g2 with lastTime := now }
  else g

/-- The method `pause()`, lines 120-128; `now` is the value of `performance.now()`. -/
def pause (g : PongGame α) (now : α) : PongGame α :=
  if g.isPlaying then
    let g1 : PongGame α := { g with isPaused := !g.isPaused }
    if !g1.isPaused then { g1 with lastTime := now } else g1
  else g

/-- The method `handleKeyDown(e)`, lines 130-149; `key` is `e.key`. -/
def handleKeyDown (g : PongGame α) (key : String) : PongGame α :=
  if !g.isPlaying || g.isPaused then g
  else
    match key with
    | "w" | "W" =>
      { g with paddles := { g.paddles with left := { g.paddles.left with velocity := -PADDLE_SPEED } } }
    | "s" | "S" =>
      { g with paddles := { g.paddles with left := { g.paddles.left with velocity := PADDLE_SPEED } } }
    | "ArrowUp" =>
      { g with paddles := { g.paddles with right := { g.paddles.right with velocity := -PADDLE_SPEED } } }
    | "ArrowDown" =>
      { g with paddles := { g.paddles with right := { g.paddles.right with velocity := PADDLE_SPEED } } }
    | _ => g

/-- The method `handleKeyUp(e)`, lines 151-166; `key` is `e.key`. -/
def handleKeyUp (g : PongGame α) (key : String) : PongGame α :=
  if !g.isPlaying then g
  else
    match key with
    | "w" | "W" | "s" | "S" =>
      { g with paddles := { g.paddles with left := { g.paddles.left with velocity := 0 } } }
    | "ArrowUp" | "ArrowDown" =>
      { g with paddles := { g.paddles with right := { g.paddles.right with velocity := 0 } } }
    | _ => g

/-- The method `checkWinner()`, lines 172-180. -/
def checkWinner (g : PongGame α) : PongGame α :=
  if g.scores.left ≥ 10 ∨ g.scores.right ≥ 10 then { g with isPlaying := false } else g

/-- The body of the first loop of `update`, lines 185-186, for one paddle. -/
def movePaddle (canvas : Canvas α) (paddle : Paddle α) (deltaTime : α) : Paddle α :=
  let y := paddle.y + paddle.velocity * deltaTime
  { paddle with y := max 0 (min (canvas.height - PADDLE_HEIGHT) y) }

/-- The test of lines 205-206: the ball's centre is in the box of the paddle
whose top left corner is `(px, py)`. -/
def inPaddle (ball : Ball α) (px py : α) : Bool :=
  decide (ball.x ≥ px ∧ ball.x ≤ px + PADDLE_WIDTH ∧
    ball.y ≥ py ∧ ball.y ≤ py + PADDLE_HEIGHT)

/-- The body of the collision branch, lines 208-213, for a paddle at height `py`. -/
def bounce (ball : Ball α) (py : α) : Ball α :=
  let velocityX := -ball.velocityX
  let speed := ball.speed * BALL_SPEED_INCREASE
  let hitPosition := (ball.y - py) / PADDLE_HEIGHT
  { ball with
    velocityX := velocityX
    speed := speed
    velocityY := (hitPosition - 0.5) * 2 * speed }

/-- The second loop of `update`, lines 204-217, over the list `paddles` of
`(x, y)` pairs: the first paddle hit bounces the ball and ends the loop. -/
def collide (ball : Ball α) : List (α × α) → Ball α
  | [] => ball
  | (px, py) :: rest => if inPaddle ball px py then bounce ball py else collide ball rest

/-- The part of `update` before the scoring test, lines 183-217: the game with
the paddles moved, the ball integrated, bounced off the walls and off the
paddles. -/
def advance (g : PongGame α) (deltaTime : α) : PongGame α :=
  let left := movePaddle g.canvas g.paddles.left deltaTime
  let right := movePaddle g.canvas g.paddles.right deltaTime
  let b1 : Ball α :=
    { g.ball with
      x := g.ball.x + g.ball.velocityX * deltaTime
      y := g.ball.y + g.ball.velocityY * deltaTime }
  let b2 : Ball α :=
    if b1.y ≤ 0 ∨ b1.y ≥ g.canvas.height then { b1 with velocityY := -b1.velocityY } else b1
  let paddles : List (α × α) := [(left.x, left.y), (right.x, right.y)]
  let b3 := collide b2 paddles
  { g with paddles := { left := left, right := right }, ball := b3 }

/-- The method `update(deltaTime)`, lines 182-231; `r1`, `r2` are the draws of the
`resetBall` call of a scoring update. -/
def update (M : JSMath α) (g : PongGame α) (deltaTime r1 r2 : α) : PongGame α :=
  let g1 := advance g deltaTime
  if g1.ball.x ≤ 0 then
    let g2 : PongGame α := { g1 with scores := { g1.scores with right := g1.scores.right + 1 } }
    checkWinner (resetBall M g2 r1 r2)
  else if g1.ball.x ≥ g1.canvas.width then
    let g2 : PongGame α := { g1 with scores := { g1.scores with left := g1.scores.left + 1 } }
    checkWinner (resetBall M g2 r1 r2)
  else g1

/-- The method `gameLoop(currentTime)`, lines 260-270. -/
def gameLoop (M : JSMath α) (g : PongGame α) (currentTime r1 r2 : α) : PongGame α :=
  if !g.isPlaying || g.isPaused then g
  else
    let deltaTime := currentTime - g.lastTime
    update M { g with lastTime := currentTime } deltaTime r1 r2

/-- The constructor, lines 2-65: the initial field values, then
`resizeCanvas()` and `resetBall()`.  The canvas size before the first
`resizeCanvas` is overwritten there and is taken as `0`. -/
def new [FloorRing α] (M : JSMath α) (clientWidth r1 r2 r3 r4 : α) : PongGame α :=
  let g0 : PongGame α :=
    { canvas := { width := 0, height := 0 }
      isPlaying := false
      isPaused := false
      scores := { left := 0, right := 0 }
      lastTime := 0
      ball := { x := 0, y := 0, velocityX := 0, velocityY := 0, speed := INITIAL_BALL_SPEED }
      paddles := { left := { x := 0, y := 0, velocity := 0 }, right := { x := 0, y := 0, velocity := 0 } } }
  resetBall M (resizeCanvas M g0 clientWidth r1 r2) r3 r4

end Defs

/-! ## Notions of the specification -/

section SpecDefs

variable {α : Type} [LinearOrderedField α]

/-- The ball centre `(x, y)` lies in the box of `paddle`:
`paddle.x <= x <= paddle.x + PADDLE_WIDTH` and
`paddle.y <= y <= paddle.y + PADDLE_HEIGHT`. -/
def InBox (paddle : Paddle α) (x y : α) : Prop :=
  paddle.x ≤ x ∧ x ≤ paddle.x + PADDLE_WIDTH ∧ paddle.y ≤ y ∧ y ≤ paddle.y + PADDLE_HEIGHT

/-- The arguments of one call of `update`: its deltaTime and the two draws of a
`resetBall` made in it. -/
structure Frame (α : Type) where
  deltaTime : α
  r1 : α
  r2 : α

/-- A sequence of `update` calls, one for each frame of the list, in order. -/
def updates (M : JSMath α) (g : PongGame α) : List (Frame α) → PongGame α
  | [] => g
  | f :: fs => updates M (update M g f.deltaTime f.r1 f.r2) fs

/-- Every call of the sequence scores a point for the left side: after
integration the ball's x is not `<= 0` and is `>= canvas.width`. -/
def LeftScoring (M : JSMath α) (g : PongGame α) : List (Frame α) → Prop
  | [] => True
  | f :: fs =>
    (0 < g.ball.x + g.ball.velocityX * f.deltaTime ∧
      g.canvas.width ≤ g.ball.x + g.ball.velocityX * f.deltaTime) ∧
    LeftScoring M (update M g f.deltaTime f.r1 f.r2) fs

/-- The game with the left paddle's velocity set to `v` and nothing else
changed. -/
def withLeftVelocity (g : PongGame α) (v : α) : PongGame α :=
  { g with paddles := { g.paddles with left := { g.paddles.left with velocity := v } } }

/-- The game with the right paddle's velocity set to `v` and nothing else
changed. -/
def withRightVelocity (g : PongGame α) (v : α) : PongGame α :=
  { g with paddles := { g.paddles with right := { g.paddles.right with velocity := v } } }

/-- What the host can deliver to a constructed game: a click on the start
button, a 'p' key (which calls `pause`), a key press, a key release, a resize
of the window, and an animation frame.  Each carries what the handler obtains
from the host while it runs. -/
inductive Event (α : Type) where
  | start (now r1 r2 : α)
  | pause (now : α)
  | keyDown (key : String)
  | keyUp (key : String)
  | resize (clientWidth r1 r2 : α)
  | frame (currentTime r1 r2 : α)

/-- The handler the constructor registers for each event, lines 54-60 and the
`requestAnimationFrame` calls. -/
def step [FloorRing α] (M : JSMath α) (g : PongGame α) : Event α → PongGame α
  | .start now r1 r2 => start M g now r1 r2
  | .pause now => pause g now
  | .keyDown key => handleKeyDown g key
  | .keyUp key => handleKeyUp g key
  | .resize clientWidth r1 r2 => resizeCanvas M g clientWidth r1 r2
  | .frame currentTime r1 r2 => gameLoop M g currentTime r1 r2

/-- The game after a sequence of events, handled in order. -/
def run [FloorRing α] (M : JSMath α) (g : PongGame α) : List (Event α) → PongGame α
  | [] => g
  | e :: es => run M (step M g e) es

/-- A state the program can be in once an operation has completed: the
constructor, for some container width and draws, followed by some sequence of
events. -/
def Reachable [FloorRing α] (M : JSMath α) (g : PongGame α) : Prop :=
  ∃ (w r1 r2 r3 r4 : α) (es : List (Event α)), run M (new M w r1 r2 r3 r4) es = g

/-- An event that keeps the paddles inside the court: any event but a resize,
and a resize to a width whose court, with the height the canvas stores for it,
is at least as high as a paddle and, while the match is being played, not
lower than the current court. -/
def Fits [FloorRing α] (g : PongGame α) : Event α → Prop
  | .resize clientWidth _ _ =>
    PADDLE_HEIGHT ≤ unsignedLong (clientWidth * (9 / 16)) 150 ∧
      (g.isPlaying = true → g.canvas.height ≤ unsignedLong (clientWidth * (9 / 16)) 150)
  | _ => True

/-- Every event of the sequence fits the state it is handled in. -/
def FitsAll [FloorRing α] (M : JSMath α) (g : PongGame α) : List (Event α) → Prop
  | [] => True
  | e :: es => Fits g e ∧ FitsAll M (step M g e) es

end SpecDefs

/-! ## Concrete inputs -/

/-- A `Math` over `ℚ` on which the model runs: `PI` is `22/7`, and `cos a`,
`sin a` are the rational functions `(1 - t²)/(1 + t²)` and `2t/(1 + t²)` of
`t = a/2`.  They take the values `1` and `0` at `0`, as the cosine and sine do,
and satisfy `cos² + sin² = 1`. -/
def ratMath : JSMath ℚ :=
  { cos := fun a => (1 - (a / 2) ^ 2) / (1 + (a / 2) ^ 2)
    sin := fun a => a / (1 + (a / 2) ^ 2)
    PI := 22 / 7 }

/-- A started match on the court of an 80 pixel wide container (80 by 45,
lower than a paddle), as `resizeCanvas` and `start` lay it out: both paddles
at `y = (45 - 100)/2`. -/
def lowCourt : PongGame ℚ :=
  { canvas := { width := 80, height := 45 }
    isPlaying := true
    isPaused := false
    scores := { left := 0, right := 0 }
    lastTime := 0
    ball := { x := 40, y := 45 / 2, velocityX := 3 / 10, velocityY := 0, speed := 3 / 10 }
    paddles :=
      { left := { x := 20, y := -55 / 2, velocity := 0 }
        right := { x := 50, y := -55 / 2, velocity := 0 } } }

/-- A match in play on an 800 by 450 court with the left side at 9 points and
the ball flying to the right from the centre. -/
def matchPoint : PongGame ℚ :=
  { canvas := { width := 800, height := 450 }
    isPlaying := true
    isPaused := false
    scores := { left := 9, right := 3 }
    lastTime := 1000
    ball := { x := 400, y := 225, velocityX := 3 / 10, velocityY := 0, speed := 3 / 10 }
    paddles :=
      { left := { x := 20, y := 175, velocity := 0 }
        right := { x := 770, y := 175, velocity := 2 / 5 } } }

/-- A rally on the 800 by 450 court: the ball flies towards the right paddle,
which is moving down. -/
def rally : PongGame ℚ :=
  { canvas := { width := 800, height := 450 }
    isPlaying := true
    isPaused := false
    scores := { left := 2, right := 1 }
    lastTime := 5000
    ball := { x := 751, y := 200, velocityX := 6 / 25, velocityY := 9 / 50, speed := 3 / 10 }
    paddles :=
      { left := { x := 20, y := 175, velocity := 0 }
        right := { x := 770, y := 175, velocity := 2 / 5 } } }

/-- A started match on the court of a 24 pixel wide container (24 by 13, the
canvas storing 13 for 13.5), as `resizeCanvas` and `start` lay it out: the
right paddle's box begins left of the court, at `x = 24 - 30`. -/
def narrowCourt : PongGame ℚ :=
  { canvas := { width := 24, height := 13 }
    isPlaying := true
    isPaused := false
    scores := { left := 0, right := 0 }
    lastTime := 0
    ball := { x := 12, y := 13 / 2, velocityX := -3 / 10, velocityY := 0, speed := 3 / 10 }
    paddles :=
      { left := { x := 20, y := -87 / 2, velocity := 0 }
        right := { x := -6, y := -87 / 2, velocity := 0 } } }

/-- The rally with the match paused. -/
def pausedRally : PongGame ℚ := { rally with isPaused := true }

/-- A match on the 800 by 450 court as `start` leaves it but for the score and
the phase: `left` points for the left side, none for the right, the ball
launched to the right from the centre. -/
def serve (left : ℚ) (isPlaying : Bool) : PongGame ℚ :=
  { canvas := { width := 800, height := 450 }
    isPlaying := isPlaying
    isPaused := false
    scores := { left := left, right := 0 }
    lastTime := 0
    ball := { x := 400, y := 225, velocityX := 3 / 10, velocityY := 0, speed := 3 / 10 }
    paddles :=
      { left := { x := 20, y := 175, velocity := 0 }
        right := { x := 770, y := 175, velocity := 0 } } }

/-- Ten frames of 2000 ms each, every one with the draws 1/2 and 1/4. -/
def tenFrames : List (Frame ℚ) := List.replicate 10 { deltaTime := 2000, r1 := 1 / 2, r2 := 1 / 4 }

/-- The state the constructor builds for an 800 pixel wide container with the
draws 1/2 and 1/4: nothing played yet, the court 800 by 450. -/
def idle : PongGame ℚ := new ratMath 800 (1 / 2) (1 / 4) (1 / 2) (1 / 4)

/-- A rally on the 800 by 450 court with the ball about to pass the top wall
in mid-court. -/
def nearWall : PongGame ℚ :=
  { canvas := { width := 800, height := 450 }
    isPlaying := true
    isPaused := false
    scores := { left := 2, right := 1 }
    lastTime := 5000
    ball := { x := 400, y := 10, velocityX := 6 / 25, velocityY := -9 / 50, speed := 3 / 10 }
    paddles :=
      { left := { x := 20, y := 175, velocity := 0 }
        right := { x := 770, y := 175, velocity := 0 } } }

/-- A started match on the court of a 48 pixel wide container (48 by 27), as
`resizeCanvas` and `start` lay it out: the boxes of the two paddles overlap
and the ball starts inside both. -/
def tinyCourt : PongGame ℚ :=
  { canvas := { width := 48, height := 27 }
    isPlaying := true
    isPaused := false
    scores := { left := 0, right := 0 }
    lastTime := 0
    ball := { x := 24, y := 27 / 2, velocityX := 3 / 10, velocityY := 0, speed := 3 / 10 }
    paddles :=
      { left := { x := 20, y := -73 / 2, velocity := 0 }
        right := { x := 18, y := -73 / 2, velocity := 0 } } }

/-- A click on the start button at time 0 and a 'p' key at time 5. -/
def startThenPause : List (Event ℚ) := [Event.start 0 (1 / 2) (1 / 4), Event.pause 5]

/-- A click on the start button at time 0 and a frame at 2000 ms, which
carries the ball past the right edge. -/
def startThenPoint : List (Event ℚ) := [Event.start 0 (1 / 2) (1 / 4), Event.frame 2000 (1 / 2) (1 / 4)]

/-- A click on the start button at time 0 and a frame at 1250 ms, which
carries the ball into the right paddle. -/
def firstBounce : List (Event ℚ) := [Event.start 0 (1 / 2) (1 / 4), Event.frame 1250 (1 / 2) (1 / 4)]

/-- A click on the start button and, while the match is being played, a resize
of the window to a 320 pixel wide container. -/
def startThenShrink : List (Event ℚ) := [Event.start 0 (1 / 2) (1 / 4), Event.resize 320 (1 / 2) (1 / 4)]

/-- A click on the start button, a resize of the window to a 1280 pixel wide
container while the match is being played, and a frame at 16 ms. -/
def startThenGrow : List (Event ℚ) :=
  [Event.start 0 (1 / 2) (1 / 4), Event.resize 1280 (1 / 2) (1 / 4), Event.frame 16 (1 / 2) (1 / 4)]

/-! ## Lemmas and claims -/

section Claims

variable {α : Type} [LinearOrderedField α]

/-- What the canvas stores for a non-negative number below `2^31`: its integer
part. -/
theorem unsignedLong_of_nonneg [FloorRing α] (v d : α) (h0 : 0 ≤ v) (h1 : v < 2147483648) :
    unsignedLong v d = ((⌊v⌋ : ℤ) : α) := by
  have hf0 : 0 ≤ ⌊v⌋ := Int.floor_nonneg.mpr h0
  have hf1 : ⌊v⌋ < 2147483648 := Int.floor_lt.mpr (by exact_mod_cast h1)
  have hm : ⌊v⌋ % 4294967296 = ⌊v⌋ := Int.emod_eq_of_lt hf0 (by omega)
  have h4 : ⌊v⌋ ≤ 2147483647 := by omega
  unfold unsignedLong
  simp only [if_pos h0, hm, if_pos h4]

/-- What the canvas stores for a number from a natural number in the range of
the attribute up to, and not including, its successor: that natural number. -/
theorem unsignedLong_of_floor [FloorRing α] (v d : α) (n : ℕ) (h1 : (n : α) ≤ v)
    (h2 : v < n + 1) (h3 : n ≤ 2147483647) : unsignedLong v d = n := by
  have hv : 0 ≤ v := le_trans (Nat.cast_nonneg n) h1
  have hfl : ⌊v⌋ = (n : ℤ) := by
    rw [Int.floor_eq_iff]
    exact ⟨by exact_mod_cast h1, by exact_mod_cast h2⟩
  have hm : (n : ℤ) % 4294967296 = n := Int.emod_eq_of_lt (by positivity) (by omega)
  have h4 : (n : ℤ) ≤ 2147483647 := by exact_mod_cast h3
  unfold unsignedLong
  simp only [if_pos hv, hfl, hm, if_pos h4, Int.cast_natCast]

@[simp] theorem stored_80_300 : unsignedLong (80 : ℚ) 300 = 80 := by
  simpa using unsignedLong_of_floor (80 : ℚ) 300 80 (by norm_num) (by norm_num) (by norm_num)

@[simp] theorem stored_45_150 : unsignedLong (45 : ℚ) 150 = 45 := by
  simpa using unsignedLong_of_floor (45 : ℚ) 150 45 (by norm_num) (by norm_num) (by norm_num)

@[simp] theorem stored_24_300 : unsignedLong (24 : ℚ) 300 = 24 := by
  simpa using unsignedLong_of_floor (24 : ℚ) 300 24 (by norm_num) (by norm_num) (by norm_num)

@[simp] theorem stored_27_div_2_150 : unsignedLong (27 / 2 : ℚ) 150 = 13 := by
  simpa using unsignedLong_of_floor (27 / 2 : ℚ) 150 13 (by norm_num) (by norm_num) (by norm_num)

@[simp] theorem stored_800_300 : unsignedLong (800 : ℚ) 300 = 800 := by
  simpa using unsignedLong_of_floor (800 : ℚ) 300 800 (by norm_num) (by norm_num) (by norm_num)

@[simp] theorem stored_450_150 : unsignedLong (450 : ℚ) 150 = 450 := by
  simpa using unsignedLong_of_floor (450 : ℚ) 150 450 (by norm_num) (by norm_num) (by norm_num)

@[simp] theorem stored_48_300 : unsignedLong (48 : ℚ) 300 = 48 := by
  simpa using unsignedLong_of_floor (48 : ℚ) 300 48 (by norm_num) (by norm_num) (by norm_num)

@[simp] theorem stored_27_150 : unsignedLong (27 : ℚ) 150 = 27 := by
  simpa using unsignedLong_of_floor (27 : ℚ) 150 27 (by norm_num) (by norm_num) (by norm_num)

@[simp] theorem stored_1280_300 : unsignedLong (1280 : ℚ) 300 = 1280 := by
  simpa using unsignedLong_of_floor (1280 : ℚ) 300 1280 (by norm_num) (by norm_num) (by norm_num)

@[simp] theorem stored_720_150 : unsignedLong (720 : ℚ) 150 = 720 := by
  simpa using unsignedLong_of_floor (720 : ℚ) 150 720 (by norm_num) (by norm_num) (by norm_num)

@[simp] theorem stored_320_300 : unsignedLong (320 : ℚ) 300 = 320 := by
  simpa using unsignedLong_of_floor (320 : ℚ) 300 320 (by norm_num) (by norm_num) (by norm_num)

@[simp] theorem stored_180_150 : unsignedLong (180 : ℚ) 150 = 180 := by
  simpa using unsignedLong_of_floor (180 : ℚ) 150 180 (by norm_num) (by norm_num) (by norm_num)

@[simp] theorem stored_1000_300 : unsignedLong (1000 : ℚ) 300 = 1000 := by
  simpa using unsignedLong_of_floor (1000 : ℚ) 300 1000 (by norm_num) (by norm_num) (by norm_num)

@[simp] theorem stored_1125_div_2_150 : unsignedLong (1125 / 2 : ℚ) 150 = 562 := by
  simpa using unsignedLong_of_floor (1125 / 2 : ℚ) 150 562 (by norm_num) (by norm_num) (by norm_num)

@[simp] theorem checkWinner_canvas (g : PongGame α) : (checkWinner g).canvas = g.canvas := by
  unfold checkWinner; split <;> rfl

@[simp] theorem checkWinner_scores (g : PongGame α) : (checkWinner g).scores = g.scores := by
  unfold checkWinner; split <;> rfl

@[simp] theorem checkWinner_ball (g : PongGame α) : (checkWinner g).ball = g.ball := by
  unfold checkWinner; split <;> rfl

@[simp] theorem checkWinner_paddles (g : PongGame α) : (checkWinner g).paddles = g.paddles := by
  unfold checkWinner; split <;> rfl

@[simp] theorem checkWinner_isPaused (g : PongGame α) : (checkWinner g).isPaused = g.isPaused := by
  unfold checkWinner; split <;> rfl

@[simp] theorem checkWinner_lastTime (g : PongGame α) : (checkWinner g).lastTime = g.lastTime := by
  unfold checkWinner; split <;> rfl

theorem checkWinner_isPlaying_of_ge (g : PongGame α)
    (h : g.scores.left ≥ 10 ∨ g.scores.right ≥ 10) : (checkWinner g).isPlaying = false := by
  unfold checkWinner; rw [if_pos h]

theorem checkWinner_isPlaying_of_lt (g : PongGame α)
    (h : ¬ (g.scores.left ≥ 10 ∨ g.scores.right ≥ 10)) :
    (checkWinner g).isPlaying = g.isPlaying := by
  unfold checkWinner; rw [if_neg h]

@[simp] theorem collide_x (b : Ball α) (ps : List (α × α)) : (collide b ps).x = b.x := by
  induction ps with
  | nil => rfl
  | cons p rest ih =>
    obtain ⟨px, py⟩ := p
    unfold collide
    split
    · rfl
    · exact ih

@[simp] theorem collide_y (b : Ball α) (ps : List (α × α)) : (collide b ps).y = b.y := by
  induction ps with
  | nil => rfl
  | cons p rest ih =>
    obtain ⟨px, py⟩ := p
    unfold collide
    split
    · rfl
    · exact ih

theorem advance_ball_x (g : PongGame α) (dt : α) :
    (advance g dt).ball.x = g.ball.x + g.ball.velocityX * dt := by
  simp only [advance, collide_x]
  split <;> rfl

theorem advance_ball_y (g : PongGame α) (dt : α) :
    (advance g dt).ball.y = g.ball.y + g.ball.velocityY * dt := by
  simp only [advance, collide_y]
  split <;> rfl

/-- The fields of the game that `update` takes over from `advance` whether or
not a point is scored. -/
theorem update_frame (M : JSMath α) (g : PongGame α) (dt r1 r2 : α) :
    (update M g dt r1 r2).canvas = g.canvas ∧
    (update M g dt r1 r2).paddles = (advance g dt).paddles ∧
    (update M g dt r1 r2).isPaused = g.isPaused ∧
    (update M g dt r1 r2).lastTime = g.lastTime := by
  unfold update
  simp only []
  split_ifs <;> simp [resetBall, advance]

theorem movePaddle_y_nonneg (c : Canvas α) (p : Paddle α) (dt : α) :
    0 ≤ (movePaddle c p dt).y := le_max_left _ _

theorem movePaddle_y_le (c : Canvas α) (p : Paddle α) (dt : α)
    (h : PADDLE_HEIGHT ≤ c.height) : (movePaddle c p dt).y ≤ c.height - PADDLE_HEIGHT := by
  simp only [movePaddle]
  exact max_le (sub_nonneg.mpr h) (min_le_left _ _)

/-- C1 (as amended): when the playfield is at least as high as a paddle, after
`update(deltaTime)` the vertical position of each of the two paddles lies in
`[0, canvas.height - PADDLE_HEIGHT]`, for every state, paddle velocity and
deltaTime. -/
theorem update_paddles_clamped (M : JSMath α) (g : PongGame α) (dt r1 r2 : α)
    (h : PADDLE_HEIGHT ≤ g.canvas.height) :
    (0 ≤ (update M g dt r1 r2).paddles.left.y ∧
      (update M g dt r1 r2).paddles.left.y ≤
        (update M g dt r1 r2).canvas.height - PADDLE_HEIGHT) ∧
    (0 ≤ (update M g dt r1 r2).paddles.right.y ∧
      (update M g dt r1 r2).paddles.right.y ≤
        (update M g dt r1 r2).canvas.height - PADDLE_HEIGHT) := by
  obtain ⟨hc, hp, -, -⟩ := update_frame M g dt r1 r2
  rw [hc, hp]
  exact ⟨⟨movePaddle_y_nonneg _ _ _, movePaddle_y_le _ _ _ h⟩,
    ⟨movePaddle_y_nonneg _ _ _, movePaddle_y_le _ _ _ h⟩⟩

theorem matchPoint_right_paddle_y :
    (update ratMath matchPoint 3600000 (1 / 2) (1 / 4)).paddles.right.y = 350 := by
  rw [(update_frame ratMath matchPoint 3600000 (1 / 2) (1 / 4)).2.1]
  norm_num [advance, movePaddle, matchPoint, PADDLE_HEIGHT]

/-- C1, witness: on the 800 by 450 court the right paddle, moving down at
`PADDLE_SPEED`, is at y = 350, the lower end of `[0, 350]`, after a frame of a
whole hour. -/
theorem update_paddles_clamped_witness :
    (PADDLE_HEIGHT : ℚ) ≤ matchPoint.canvas.height ∧
    (update ratMath matchPoint 3600000 (1 / 2) (1 / 4)).paddles.right.y = 350 ∧
    ((0 ≤ (update ratMath matchPoint 3600000 (1 / 2) (1 / 4)).paddles.left.y ∧
      (update ratMath matchPoint 3600000 (1 / 2) (1 / 4)).paddles.left.y ≤
        (update ratMath matchPoint 3600000 (1 / 2) (1 / 4)).canvas.height - PADDLE_HEIGHT) ∧
    (0 ≤ (update ratMath matchPoint 3600000 (1 / 2) (1 / 4)).paddles.right.y ∧
      (update ratMath matchPoint 3600000 (1 / 2) (1 / 4)).paddles.right.y ≤
        (update ratMath matchPoint 3600000 (1 / 2) (1 / 4)).canvas.height - PADDLE_HEIGHT)) :=
  ⟨by norm_num [PADDLE_HEIGHT, matchPoint], matchPoint_right_paddle_y,
    update_paddles_clamped ratMath matchPoint 3600000 (1 / 2) (1 / 4)
      (by norm_num [PADDLE_HEIGHT, matchPoint])⟩

theorem lowCourt_reached :
    start ratMath (new ratMath 80 (1 / 2) (1 / 4) (1 / 2) (1 / 4)) 0 (1 / 2) (1 / 4) = lowCourt := by
  norm_num [start, new, resizeCanvas, resetPositions, resetBall, ratMath, lowCourt,
    PADDLE_HEIGHT, PADDLE_WIDTH, INITIAL_BALL_SPEED]

/-- C1, counterexample: on the 80 by 45 court, which the constructor and
`start` build for an 80 pixel wide container, `update(16)` leaves the left
paddle at `y = 0`, which is above `canvas.height - PADDLE_HEIGHT = -55`. -/
theorem update_paddles_clamped_fails_low_court :
    start ratMath (new ratMath 80 (1 / 2) (1 / 4) (1 / 2) (1 / 4)) 0 (1 / 2) (1 / 4) = lowCourt ∧
    (update ratMath lowCourt 16 (1 / 2) (1 / 4)).paddles.left.y = 0 ∧
    (update ratMath lowCourt 16 (1 / 2) (1 / 4)).canvas.height - PADDLE_HEIGHT = -55 ∧
    ¬ (0 ≤ (update ratMath lowCourt 16 (1 / 2) (1 / 4)).paddles.left.y ∧
        (update ratMath lowCourt 16 (1 / 2) (1 / 4)).paddles.left.y ≤
          (update ratMath lowCourt 16 (1 / 2) (1 / 4)).canvas.height - PADDLE_HEIGHT) := by
  refine ⟨lowCourt_reached, ?_⟩
  obtain ⟨hc, hp, -, -⟩ := update_frame ratMath lowCourt 16 (1 / 2) (1 / 4)
  rw [hc, hp]
  norm_num [advance, movePaddle, lowCourt, PADDLE_HEIGHT]

/-- C2: the scoring outcome of `update(deltaTime)` is decided by the ball's x
after integration and collision handling, `x + velocityX * deltaTime`: if it is
`<= 0` the right score grows by exactly 1 and the left score is unchanged;
otherwise if it is `>= canvas.width` the left score grows by exactly 1 and the
right score is unchanged; otherwise both are unchanged.  In both scoring cases
the ball ends at the centre, and no score ever decreases. -/
theorem update_scoring (M : JSMath α) (g : PongGame α) (dt r1 r2 : α) :
    (advance g dt).ball.x = g.ball.x + g.ball.velocityX * dt ∧
    (update M g dt r1 r2).scores =
      (if g.ball.x + g.ball.velocityX * dt ≤ 0 then
        { left := g.scores.left, right := g.scores.right + 1 }
      else if g.ball.x + g.ball.velocityX * dt ≥ g.canvas.width then
        { left := g.scores.left + 1, right := g.scores.right }
      else g.scores) ∧
    ((g.ball.x + g.ball.velocityX * dt ≤ 0 ∨ g.ball.x + g.ball.velocityX * dt ≥ g.canvas.width) →
      (update M g dt r1 r2).ball.x = g.canvas.width / 2 ∧
      (update M g dt r1 r2).ball.y = g.canvas.height / 2) ∧
    g.scores.left ≤ (update M g dt r1 r2).scores.left ∧
    g.scores.right ≤ (update M g dt r1 r2).scores.right := by
  have hx := advance_ball_x g dt
  refine ⟨hx, ?_⟩
  unfold update
  simp only [hx]
  by_cases h0 : g.ball.x + g.ball.velocityX * dt ≤ 0
  · simp [h0, resetBall, advance]
  · by_cases hw : g.ball.x + g.ball.velocityX * dt ≥ g.canvas.width
    · simp [h0, hw, resetBall, advance]
    · simp [h0, hw, advance]

/-- C3: from a state in which the match is being played and both scores are at
most 9, after `update(deltaTime)` the match is finished (`isPlaying` false) if
and only if one of the two scores equals 10. -/
theorem update_finished_iff (M : JSMath α) (g : PongGame α) (dt r1 r2 : α)
    (hplay : g.isPlaying = true) (hl : g.scores.left ≤ 9) (hr : g.scores.right ≤ 9) :
    (update M g dt r1 r2).isPlaying = false ↔
      ((update M g dt r1 r2).scores.left = 10 ∨ (update M g dt r1 r2).scores.right = 10) := by
  have hl10 : ¬ g.scores.left ≥ 10 := by
    intro h; linarith
  have hr10 : ¬ g.scores.right ≥ 10 := by
    intro h; linarith
  unfold update
  simp only []
  split_ifs with h0 hw
  · by_cases h : g.scores.right + 1 ≥ 10
    · have e : g.scores.right + 1 = 10 := le_antisymm (by linarith) h
      rw [checkWinner_isPlaying_of_ge _ (Or.inr (by simpa [resetBall, advance] using h))]
      simp [resetBall, advance, e]
    · rw [checkWinner_isPlaying_of_lt _ (by simpa [resetBall, advance] using And.intro hl10 h)]
      have e : g.scores.right + 1 ≠ 10 := fun e => h (by rw [e])
      have e2 : g.scores.left ≠ 10 := fun e => hl10 (by rw [e])
      simp [resetBall, advance, hplay, e, e2]
  · by_cases h : g.scores.left + 1 ≥ 10
    · have e : g.scores.left + 1 = 10 := le_antisymm (by linarith) h
      rw [checkWinner_isPlaying_of_ge _ (Or.inl (by simpa [resetBall, advance] using h))]
      simp [resetBall, advance, e]
    · rw [checkWinner_isPlaying_of_lt _ (by simpa [resetBall, advance] using And.intro h hr10)]
      have e : g.scores.left + 1 ≠ 10 := fun e => h (by rw [e])
      have e2 : g.scores.right ≠ 10 := fun e => hr10 (by rw [e])
      simp [resetBall, advance, hplay, e, e2]
  · have e1 : g.scores.left ≠ 10 := fun e => hl10 (by rw [e])
    have e2 : g.scores.right ≠ 10 := fun e => hr10 (by rw [e])
    simp [advance, hplay, e1, e2]

/-- C3, witness: at 9 to 3 a frame of 2000 ms carries the ball from the centre
past the right edge; the left side reaches 10 and the match is finished. -/
theorem update_finished_iff_witness :
    (matchPoint.isPlaying = true ∧ matchPoint.scores.left ≤ 9 ∧ matchPoint.scores.right ≤ 9) ∧
    (update ratMath matchPoint 2000 (1 / 2) (1 / 4)).scores.left = 10 ∧
    ((update ratMath matchPoint 2000 (1 / 2) (1 / 4)).isPlaying = false ↔
      ((update ratMath matchPoint 2000 (1 / 2) (1 / 4)).scores.left = 10 ∨
        (update ratMath matchPoint 2000 (1 / 2) (1 / 4)).scores.right = 10)) :=
  ⟨⟨rfl, by norm_num [matchPoint], by norm_num [matchPoint]⟩,
    by
      unfold update
      simp only [advance_ball_x]
      norm_num [matchPoint, resetBall, advance],
    update_finished_iff ratMath matchPoint 2000 (1 / 2) (1 / 4) rfl
      (by norm_num [matchPoint]) (by norm_num [matchPoint])⟩

theorem collide_of_hit (b : Ball α) (ps : List (α × α))
    (h : ∃ p ∈ ps, inPaddle b p.1 p.2 = true) :
    (collide b ps).speed = b.speed * BALL_SPEED_INCREASE ∧
    (collide b ps).velocityX = -b.velocityX := by
  induction ps with
  | nil => simp at h
  | cons p rest ih =>
    obtain ⟨px, py⟩ := p
    unfold collide
    split
    · exact ⟨rfl, rfl⟩
    · rename_i hno
      apply ih
      obtain ⟨q, hq, hit⟩ := h
      rcases List.mem_cons.mp hq with e | hmem
      · subst e
        exact absurd hit hno
      · exact ⟨q, hmem, hit⟩

theorem inPaddle_iff (b : Ball α) (p : Paddle α) :
    inPaddle b p.x p.y = true ↔ InBox p b.x b.y := by
  simp [inPaddle, InBox]

/-- The speed and horizontal velocity of the ball after `advance` when its
integrated centre is in the box of one of the moved paddles. -/
theorem advance_of_hit (g : PongGame α) (dt : α)
    (hbox : InBox (advance g dt).paddles.left
        (g.ball.x + g.ball.velocityX * dt) (g.ball.y + g.ball.velocityY * dt) ∨
      InBox (advance g dt).paddles.right
        (g.ball.x + g.ball.velocityX * dt) (g.ball.y + g.ball.velocityY * dt)) :
    (advance g dt).ball.speed = g.ball.speed * BALL_SPEED_INCREASE ∧
    (advance g dt).ball.velocityX = -g.ball.velocityX := by
  simp only [advance] at hbox ⊢
  split_ifs with hwall
  · refine collide_of_hit _ _ ?_
    rcases hbox with h | h
    · exact ⟨_, List.mem_cons_self _ _, (inPaddle_iff _ _).mpr h⟩
    · exact ⟨_, List.mem_cons_of_mem _ (List.mem_cons_self _ _), (inPaddle_iff _ _).mpr h⟩
  · refine collide_of_hit _ _ ?_
    rcases hbox with h | h
    · exact ⟨_, List.mem_cons_self _ _, (inPaddle_iff _ _).mpr h⟩
    · exact ⟨_, List.mem_cons_of_mem _ (List.mem_cons_self _ _), (inPaddle_iff _ _).mpr h⟩

theorem update_of_no_score (M : JSMath α) (g : PongGame α) (dt r1 r2 : α)
    (h0 : 0 < g.ball.x + g.ball.velocityX * dt)
    (hw : g.ball.x + g.ball.velocityX * dt < g.canvas.width) :
    update M g dt r1 r2 = advance g dt := by
  unfold update
  simp only [advance_ball_x]
  rw [if_neg (not_le.mpr h0), if_neg]
  simpa [advance] using hw

/-- C4 (as amended): if during `update(deltaTime)` the ball's centre after
integration lies inside a paddle's box and no point is scored in the same
update (`0 < x < canvas.width`), then after `update` `ball.speed` equals 1.1
times its value before and `ball.velocityX` is the negation of its value
before. -/
theorem update_paddle_bounce (M : JSMath α) (g : PongGame α) (dt r1 r2 : α)
    (hbox : InBox (update M g dt r1 r2).paddles.left
        (g.ball.x + g.ball.velocityX * dt) (g.ball.y + g.ball.velocityY * dt) ∨
      InBox (update M g dt r1 r2).paddles.right
        (g.ball.x + g.ball.velocityX * dt) (g.ball.y + g.ball.velocityY * dt))
    (h0 : 0 < g.ball.x + g.ball.velocityX * dt)
    (hw : g.ball.x + g.ball.velocityX * dt < g.canvas.width) :
    (update M g dt r1 r2).ball.speed = 1.1 * g.ball.speed ∧
    (update M g dt r1 r2).ball.velocityX = -g.ball.velocityX := by
  rw [update_of_no_score M g dt r1 r2 h0 hw] at hbox ⊢
  obtain ⟨hs, hv⟩ := advance_of_hit g dt hbox
  refine ⟨?_, hv⟩
  rw [hs, mul_comm]
  rfl

theorem rally_right_paddle :
    (update ratMath rally 100 (1 / 2) (1 / 4)).paddles.right = { x := 770, y := 215, velocity := 2 / 5 } := by
  rw [(update_frame ratMath rally 100 (1 / 2) (1 / 4)).2.1]
  norm_num [advance, movePaddle, rally, PADDLE_HEIGHT]

/-- C4, witness: in the rally a frame of 100 ms puts the ball at (775, 218),
inside the box of the right paddle, which has moved to y = 215; the speed goes
from 0.3 to 0.33 and velocityX from 0.24 to -0.24. -/
theorem update_paddle_bounce_witness :
    (update ratMath rally 100 (1 / 2) (1 / 4)).ball.speed = 1.1 * (3 / 10) ∧
    (update ratMath rally 100 (1 / 2) (1 / 4)).ball.velocityX = -(6 / 25) :=
  update_paddle_bounce ratMath rally 100 (1 / 2) (1 / 4)
    (Or.inr (by rw [rally_right_paddle]; norm_num [InBox, rally, PADDLE_WIDTH, PADDLE_HEIGHT]))
    (by norm_num [rally]) (by norm_num [rally])

theorem narrowCourt_reached :
    start ratMath (new ratMath 24 (1 / 2) (1 / 4) (1 / 2) (1 / 4)) 0 (1 / 2) (3 / 4) = narrowCourt := by
  norm_num [start, new, resizeCanvas, resetPositions, resetBall, ratMath, narrowCourt,
    PADDLE_HEIGHT, PADDLE_WIDTH, INITIAL_BALL_SPEED]

theorem narrowCourt_right_paddle :
    (update ratMath narrowCourt 50 (1 / 2) (3 / 4)).paddles.right = { x := -6, y := 0, velocity := 0 } := by
  rw [(update_frame ratMath narrowCourt 50 (1 / 2) (3 / 4)).2.1]
  norm_num [advance, movePaddle, narrowCourt, PADDLE_HEIGHT]

theorem narrowCourt_ball :
    (update ratMath narrowCourt 50 (1 / 2) (3 / 4)).ball =
      { x := 12, y := 13 / 2, velocityX := -3 / 10, velocityY := 0, speed := 3 / 10 } := by
  unfold update
  simp only [advance_ball_x]
  norm_num [narrowCourt, resetBall, advance, ratMath, INITIAL_BALL_SPEED]

/-- C4, counterexample: on the court of a 24 pixel wide container a frame of
50 ms puts the ball at (-3, 6.5), inside the box of the right paddle (x from
-6 to 4, y from 0 to 100 after the paddle's move, from -43.5 to 56.5 before
it) and past the left edge: the point is scored, the ball is reset, and after
`update` the speed is 0.3, not 0.33, and velocityX is -0.3, as before, not
0.3. -/
theorem update_paddle_bounce_fails_when_scoring :
    start ratMath (new ratMath 24 (1 / 2) (1 / 4) (1 / 2) (1 / 4)) 0 (1 / 2) (3 / 4) = narrowCourt ∧
    InBox (update ratMath narrowCourt 50 (1 / 2) (3 / 4)).paddles.right
      (narrowCourt.ball.x + narrowCourt.ball.velocityX * 50)
      (narrowCourt.ball.y + narrowCourt.ball.velocityY * 50) ∧
    InBox narrowCourt.paddles.right
      (narrowCourt.ball.x + narrowCourt.ball.velocityX * 50)
      (narrowCourt.ball.y + narrowCourt.ball.velocityY * 50) ∧
    ¬ (update ratMath narrowCourt 50 (1 / 2) (3 / 4)).ball.speed = 1.1 * narrowCourt.ball.speed ∧
    ¬ (update ratMath narrowCourt 50 (1 / 2) (3 / 4)).ball.velocityX =
        -narrowCourt.ball.velocityX := by
  refine ⟨narrowCourt_reached, ?_, ?_, ?_, ?_⟩
  · rw [narrowCourt_right_paddle]
    norm_num [InBox, narrowCourt, PADDLE_WIDTH, PADDLE_HEIGHT]
  · norm_num [InBox, narrowCourt, PADDLE_WIDTH, PADDLE_HEIGHT]
  · rw [narrowCourt_ball]
    norm_num [narrowCourt]
  · rw [narrowCourt_ball]
    norm_num [narrowCourt]

/-- After `resetBall` the ball is at the centre with the initial speed, and its
velocity has the length `speed` whenever the cosine and sine of `M` at the
launch angle have squares adding up to 1. -/
theorem resetBall_ball (M : JSMath α) (g : PongGame α) (r1 r2 : α)
    (hM : M.cos (r1 * M.PI / 4 - M.PI / 8) ^ 2 + M.sin (r1 * M.PI / 4 - M.PI / 8) ^ 2 = 1) :
    (resetBall M g r1 r2).ball.speed = INITIAL_BALL_SPEED ∧
    (resetBall M g r1 r2).ball.velocityX ^ 2 + (resetBall M g r1 r2).ball.velocityY ^ 2 =
      (resetBall M g r1 r2).ball.speed ^ 2 ∧
    (resetBall M g r1 r2).ball.x = g.canvas.width / 2 ∧
    (resetBall M g r1 r2).ball.y = g.canvas.height / 2 := by
  refine ⟨rfl, ?_, rfl, rfl⟩
  simp only [resetBall]
  split_ifs
  · linear_combination (INITIAL_BALL_SPEED : α) ^ 2 * hM
  · linear_combination (INITIAL_BALL_SPEED : α) ^ 2 * hM

/-- C5: with the real cosine, sine and pi for `Math.cos`, `Math.sin` and
`Math.PI`, for every state and every pair of draws, after `resetBall` the
ball's speed is `INITIAL_BALL_SPEED`, which is 0.3,
`velocityX^2 + velocityY^2 = speed^2`, and the ball is at
`(canvas.width/2, canvas.height/2)`. -/
theorem resetBall_speed_and_centre (g : PongGame ℝ) (r1 r2 : ℝ) :
    (INITIAL_BALL_SPEED : ℝ) = 0.3 ∧
    (resetBall ⟨Real.cos, Real.sin, Real.pi⟩ g r1 r2).ball.speed = INITIAL_BALL_SPEED ∧
    (resetBall ⟨Real.cos, Real.sin, Real.pi⟩ g r1 r2).ball.velocityX ^ 2 +
        (resetBall ⟨Real.cos, Real.sin, Real.pi⟩ g r1 r2).ball.velocityY ^ 2 =
      (resetBall ⟨Real.cos, Real.sin, Real.pi⟩ g r1 r2).ball.speed ^ 2 ∧
    (resetBall ⟨Real.cos, Real.sin, Real.pi⟩ g r1 r2).ball.x = g.canvas.width / 2 ∧
    (resetBall ⟨Real.cos, Real.sin, Real.pi⟩ g r1 r2).ball.y = g.canvas.height / 2 :=
  ⟨rfl, resetBall_ball ⟨Real.cos, Real.sin, Real.pi⟩ g r1 r2 (Real.cos_sq_add_sin_sq _)⟩

/-- C6: in a Paused state (`isPlaying` and `isPaused` both true) the frame
callback `gameLoop(currentTime)`, the only caller of `update`, leaves the whole
state unchanged for every timestamp: the ball's position and velocity, both
paddles, the scores and `lastTime`. -/
theorem gameLoop_paused (M : JSMath α) (g : PongGame α) (currentTime r1 r2 : α)
    (hplay : g.isPlaying = true) (hpause : g.isPaused = true) :
    gameLoop M g currentTime r1 r2 = g := by
  simp [gameLoop, hplay, hpause]

/-- C6, witness: the paused rally is the same after a frame callback a whole
hour after the last one. -/
theorem gameLoop_paused_witness :
    (pausedRally.isPlaying = true ∧ pausedRally.isPaused = true) ∧
    gameLoop ratMath pausedRally 3605000 (1 / 2) (1 / 4) = pausedRally :=
  ⟨⟨rfl, rfl⟩, gameLoop_paused ratMath pausedRally 3605000 (1 / 2) (1 / 4) rfl rfl⟩

/-- One left-scoring call of `update`: the left score grows by one, the right
score stays, and the match is finished exactly when a score is then `>= 10`. -/
theorem update_left_point (M : JSMath α) (g : PongGame α) (dt r1 r2 : α)
    (h0 : 0 < g.ball.x + g.ball.velocityX * dt)
    (hw : g.canvas.width ≤ g.ball.x + g.ball.velocityX * dt) :
    (update M g dt r1 r2).scores.left = g.scores.left + 1 ∧
    (update M g dt r1 r2).scores.right = g.scores.right ∧
    (update M g dt r1 r2).isPlaying =
      (if g.scores.left + 1 ≥ 10 ∨ g.scores.right ≥ 10 then false else g.isPlaying) := by
  unfold update
  simp only [advance_ball_x]
  rw [if_neg (not_le.mpr h0), if_pos (by simpa [advance] using hw)]
  refine ⟨by simp [resetBall, advance], by simp [resetBall, advance], ?_⟩
  unfold checkWinner
  simp only [resetBall, advance]
  split_ifs <;> rfl

theorem updates_left_points (M : JSMath α) (fs : List (Frame α)) :
    ∀ g : PongGame α, LeftScoring M g fs → g.isPlaying = true → g.scores.right = 0 →
      g.scores.left + fs.length ≤ 10 →
      (updates M g fs).scores.left = g.scores.left + fs.length ∧
      (updates M g fs).scores.right = 0 ∧
      ((updates M g fs).isPlaying = false ↔ (fs ≠ [] ∧ g.scores.left + fs.length = 10)) := by
  induction fs with
  | nil =>
    intro g _ hp hr _
    simp [updates, hp, hr]
  | cons f fs ih =>
    intro g hs hp hr hle
    obtain ⟨⟨h0, hw⟩, hrest⟩ := hs
    obtain ⟨el, er, ep⟩ := update_left_point M g f.deltaTime f.r1 f.r2 h0 hw
    have hlen : ((f :: fs).length : α) = (fs.length : α) + 1 := by
      simp
    rw [hlen] at hle ⊢
    have hfs : (0 : α) ≤ (fs.length : α) := Nat.cast_nonneg _
    cases fs with
    | nil =>
      simp only [updates, List.length_nil, Nat.cast_zero, zero_add] at hle ⊢
      refine ⟨el, er.trans hr, ?_⟩
      rw [ep, hr, hp]
      have h10 : ¬ ((0 : α) ≥ 10) := by norm_num
      constructor
      · intro h
        refine ⟨by simp, ?_⟩
        by_contra hne
        have hlt : ¬ (g.scores.left + 1 ≥ 10) := fun hge => hne (le_antisymm hle hge)
        simp [hlt, h10] at h
      · rintro ⟨-, e⟩
        simp [e]
    | cons f2 fs2 =>
      have hpos : (1 : α) ≤ ((f2 :: fs2).length : α) := by
        simp
      have hlt : ¬ (g.scores.left + 1 ≥ 10) := by
        intro hge
        linarith
      have h10 : ¬ ((0 : α) ≥ 10) := by norm_num
      have hp1 : (update M g f.deltaTime f.r1 f.r2).isPlaying = true := by
        rw [ep, hr, hp]
        simp [hlt, h10]
      have := ih (update M g f.deltaTime f.r1 f.r2) hrest hp1 (er.trans hr)
        (by rw [el]; linarith)
      obtain ⟨a, b, c⟩ := this
      refine ⟨?_, b, ?_⟩
      · show (updates M (update M g f.deltaTime f.r1 f.r2) (f2 :: fs2)).scores.left = _
        rw [a, el]; ring
      · show (updates M (update M g f.deltaTime f.r1 f.r2) (f2 :: fs2)).isPlaying = false ↔ _
        rw [c, el]
        constructor
        · rintro ⟨-, e⟩
          exact ⟨by simp, by rw [← e]; ring⟩
        · rintro ⟨-, e⟩
          exact ⟨by simp, by rw [← e]; ring⟩

/-- The frame callback in a state that is not being played. -/
theorem gameLoop_of_not_playing (M : JSMath α) (g : PongGame α) (t r1 r2 : α)
    (h : g.isPlaying = false) : gameLoop M g t r1 r2 = g := by
  simp [gameLoop, h]

theorem start_of_not_playing (M : JSMath α) (g : PongGame α) (now r1 r2 : α)
    (h : g.isPlaying = false) :
    start M g now r1 r2 =
      { resetPositions M { g with isPlaying := true, scores := { left := 0, right := 0 } } r1 r2
        with lastTime := now } := by
  simp [start, h]

/-- C7 (as amended): starting from a freshly started match, when the left score
is driven up by at most ten left-scoring calls of `update`, after the calls the
left score is their number and the match is Finished (`isPlaying` false)
exactly when that number is ten, so after the 10th point and not before; and if
the frame callback `gameLoop`, which is what invokes `update`, is called again
after the 10th point, with any timestamp, the state is the same after the call
as before it, the ball's and both paddles' positions included. -/
theorem left_wins_after_ten_points (M : JSMath α) (g : PongGame α) (now r1 r2 : α)
    (frames : List (Frame α)) (hidle : g.isPlaying = false) (hlen : frames.length ≤ 10)
    (hscore : LeftScoring M (start M g now r1 r2) frames) :
    (updates M (start M g now r1 r2) frames).scores.left = frames.length ∧
    ((updates M (start M g now r1 r2) frames).isPlaying = false ↔ frames.length = 10) ∧
    (frames.length = 10 → ∀ t r3 r4 : α,
      gameLoop M (updates M (start M g now r1 r2) frames) t r3 r4 =
        updates M (start M g now r1 r2) frames) := by
  have hs := start_of_not_playing M g now r1 r2 hidle
  have hp : (start M g now r1 r2).isPlaying = true := by rw [hs]; rfl
  have hl : (start M g now r1 r2).scores.left = 0 := by rw [hs]; rfl
  have hr : (start M g now r1 r2).scores.right = 0 := by rw [hs]; rfl
  have hle : (start M g now r1 r2).scores.left + (frames.length : α) ≤ 10 := by
    rw [hl, zero_add]
    exact_mod_cast hlen
  obtain ⟨a, -, c⟩ := updates_left_points M frames _ hscore hp hr hle
  rw [hl, zero_add] at a c
  have hiff : (updates M (start M g now r1 r2) frames).isPlaying = false ↔ frames.length = 10 := by
    rw [c]
    constructor
    · rintro ⟨-, e⟩
      exact_mod_cast e
    · intro e
      refine ⟨?_, by rw [e]; norm_num⟩
      intro hnil
      rw [hnil] at e
      simp at e
  exact ⟨a, hiff, fun e t r3 r4 => gameLoop_of_not_playing M _ t r3 r4 (hiff.mpr e)⟩

theorem serve_reached :
    start ratMath (new ratMath 800 (1 / 2) (1 / 4) (1 / 2) (1 / 4)) 0 (1 / 2) (1 / 4) =
      serve 0 true := by
  norm_num [start, new, resizeCanvas, resetPositions, resetBall, ratMath, serve,
    PADDLE_HEIGHT, PADDLE_WIDTH, INITIAL_BALL_SPEED]

theorem new_isPlaying (M : JSMath ℚ) (w r1 r2 r3 r4 : ℚ) :
    (new M w r1 r2 r3 r4).isPlaying = false := by
  simp [new, resizeCanvas, resetPositions, resetBall]

theorem serve_update (n m : ℚ) (p : Bool) (hm : m = n + 1) :
    update ratMath (serve n p) 2000 (1 / 2) (1 / 4) = serve m (if m ≥ 10 then false else p) := by
  subst hm
  unfold update
  simp only [advance_ball_x]
  have h1 : ¬ ((serve n p).ball.x + (serve n p).ball.velocityX * 2000 ≤ 0) := by
    norm_num [serve]
  have h2 : (serve n p).ball.x + (serve n p).ball.velocityX * 2000 ≥
      (advance (serve n p) 2000).canvas.width := by
    norm_num [serve, advance]
  rw [if_neg h1, if_pos h2]
  unfold checkWinner
  by_cases h : n + 1 ≥ 10
  · norm_num [h, serve, resetBall, advance, movePaddle, ratMath, INITIAL_BALL_SPEED, PADDLE_HEIGHT]
  · norm_num [h, serve, resetBall, advance, movePaddle, ratMath, INITIAL_BALL_SPEED, PADDLE_HEIGHT]

theorem serve_ten_frames : updates ratMath (serve 0 true) tenFrames = serve 10 false := by
  simp only [tenFrames, List.replicate, updates]
  rw [serve_update 0 1 true (by norm_num), serve_update 1 2 _ (by norm_num),
    serve_update 2 3 _ (by norm_num), serve_update 3 4 _ (by norm_num),
    serve_update 4 5 _ (by norm_num), serve_update 5 6 _ (by norm_num),
    serve_update 6 7 _ (by norm_num), serve_update 7 8 _ (by norm_num),
    serve_update 8 9 _ (by norm_num), serve_update 9 10 _ (by norm_num)]
  norm_num

theorem serve_ten_frames_score : LeftScoring ratMath (serve 0 true) tenFrames := by
  simp only [tenFrames, List.replicate, LeftScoring]
  rw [serve_update 0 1 true (by norm_num), serve_update 1 2 _ (by norm_num),
    serve_update 2 3 _ (by norm_num), serve_update 3 4 _ (by norm_num),
    serve_update 4 5 _ (by norm_num), serve_update 5 6 _ (by norm_num),
    serve_update 6 7 _ (by norm_num), serve_update 7 8 _ (by norm_num),
    serve_update 8 9 _ (by norm_num)]
  norm_num [serve]

/-- C7, witness: a match started on the 800 by 450 court and ten frames of
2000 ms, each of which carries the ball from the centre past the right edge:
the run ends in the state `serve 10 false`, with 10 points for the left side
and the match finished. -/
theorem left_wins_after_ten_points_witness :
    updates ratMath (start ratMath (new ratMath 800 (1 / 2) (1 / 4) (1 / 2) (1 / 4)) 0 (1 / 2) (1 / 4))
        tenFrames = serve 10 false ∧
    ((updates ratMath
        (start ratMath (new ratMath 800 (1 / 2) (1 / 4) (1 / 2) (1 / 4)) 0 (1 / 2) (1 / 4))
        tenFrames).scores.left = tenFrames.length ∧
    ((updates ratMath
        (start ratMath (new ratMath 800 (1 / 2) (1 / 4) (1 / 2) (1 / 4)) 0 (1 / 2) (1 / 4))
        tenFrames).isPlaying = false ↔ tenFrames.length = 10) ∧
    (tenFrames.length = 10 → ∀ t r3 r4 : ℚ,
      gameLoop ratMath (updates ratMath
        (start ratMath (new ratMath 800 (1 / 2) (1 / 4) (1 / 2) (1 / 4)) 0 (1 / 2) (1 / 4))
        tenFrames) t r3 r4 =
      updates ratMath
        (start ratMath (new ratMath 800 (1 / 2) (1 / 4) (1 / 2) (1 / 4)) 0 (1 / 2) (1 / 4))
        tenFrames)) :=
  ⟨by rw [serve_reached]; exact serve_ten_frames,
    left_wins_after_ten_points ratMath (new ratMath 800 (1 / 2) (1 / 4) (1 / 2) (1 / 4)) 0
      (1 / 2) (1 / 4) tenFrames (new_isPlaying _ _ _ _ _ _) (by simp [tenFrames])
      (by rw [serve_reached]; exact serve_ten_frames_score)⟩

/-- C7, counterexample: after the ten points the match is finished with the
ball at the centre, x = 400, and both paddles at y = 175; one more
`update(100)` moves the ball to x = 430. -/
theorem update_after_finish_moves_ball :
    updates ratMath (start ratMath (new ratMath 800 (1 / 2) (1 / 4) (1 / 2) (1 / 4)) 0 (1 / 2) (1 / 4))
        tenFrames = serve 10 false ∧
    LeftScoring ratMath
      (start ratMath (new ratMath 800 (1 / 2) (1 / 4) (1 / 2) (1 / 4)) 0 (1 / 2) (1 / 4)) tenFrames ∧
    (serve 10 false).isPlaying = false ∧
    (serve 10 false).ball.x = 400 ∧
    (update ratMath (serve 10 false) 100 (1 / 2) (1 / 4)).ball.x = 430 ∧
    ¬ (update ratMath (serve 10 false) 100 (1 / 2) (1 / 4)).ball.x = (serve 10 false).ball.x := by
  have hx : (update ratMath (serve 10 false) 100 (1 / 2) (1 / 4)).ball.x = 430 := by
    rw [update_of_no_score _ _ _ _ _ (by norm_num [serve]) (by norm_num [serve]), advance_ball_x]
    norm_num [serve]
  refine ⟨by rw [serve_reached]; exact serve_ten_frames,
    by rw [serve_reached]; exact serve_ten_frames_score, rfl, rfl, hx, ?_⟩
  rw [hx]
  norm_num [serve]

/-- C8: `start()` acts only when the match is not being played.  If `isPlaying`
is true the whole state is unchanged.  If it is false then afterwards
`isPlaying` is true, both scores are 0, both paddles have velocity 0 and
`y = (canvas.height - PADDLE_HEIGHT)/2`, the ball is at the centre with speed
`INITIAL_BALL_SPEED`, and `lastTime` is the current timestamp; and one `update`
after it whose deltaTime carries the ball to `x <= 0` yields the scores (0, 1),
the ball at the centre again and `isPlaying` still true. -/
theorem start_spec (M : JSMath α) (g : PongGame α) (now r1 r2 : α) :
    (g.isPlaying = true → start M g now r1 r2 = g) ∧
    (g.isPlaying = false →
      (start M g now r1 r2).isPlaying = true ∧
      (start M g now r1 r2).scores = { left := 0, right := 0 } ∧
      (start M g now r1 r2).paddles.left.velocity = 0 ∧
      (start M g now r1 r2).paddles.right.velocity = 0 ∧
      (start M g now r1 r2).paddles.left.y = (g.canvas.height - PADDLE_HEIGHT) / 2 ∧
      (start M g now r1 r2).paddles.right.y = (g.canvas.height - PADDLE_HEIGHT) / 2 ∧
      (start M g now r1 r2).ball.x = g.canvas.width / 2 ∧
      (start M g now r1 r2).ball.y = g.canvas.height / 2 ∧
      (start M g now r1 r2).ball.speed = INITIAL_BALL_SPEED ∧
      (start M g now r1 r2).lastTime = now ∧
      ∀ dt r3 r4 : α,
        (start M g now r1 r2).ball.x + (start M g now r1 r2).ball.velocityX * dt ≤ 0 →
        (update M (start M g now r1 r2) dt r3 r4).scores = { left := 0, right := 1 } ∧
        (update M (start M g now r1 r2) dt r3 r4).ball.x = g.canvas.width / 2 ∧
        (update M (start M g now r1 r2) dt r3 r4).ball.y = g.canvas.height / 2 ∧
        (update M (start M g now r1 r2) dt r3 r4).isPlaying = true) := by
  constructor
  · intro h
    simp [start, h]
  · intro h
    rw [start_of_not_playing M g now r1 r2 h]
    refine ⟨rfl, rfl, rfl, rfl, rfl, rfl, rfl, rfl, rfl, rfl, ?_⟩
    intro dt r3 r4 hx
    unfold update
    simp only [advance_ball_x]
    rw [if_pos hx]
    refine ⟨?_, ?_, ?_, ?_⟩
    · simp [resetBall, resetPositions, advance]
    · simp [resetBall, resetPositions, advance]
    · simp [resetBall, resetPositions, advance]
    · rw [checkWinner_isPlaying_of_lt _ (by simp [resetBall, resetPositions, advance])]
      simp [resetBall, resetPositions, advance]

/-- C8, witness: `start` on the idle 800 by 450 court with the ball launched to
the left, then a frame of 2000 ms, which carries the ball to x = -200: the
scores are (0, 1), the ball is back at (400, 225) and the match is still being
played. -/
theorem start_spec_witness :
    idle.isPlaying = false ∧
    (start ratMath idle 0 (1 / 2) (3 / 4)).ball.x +
      (start ratMath idle 0 (1 / 2) (3 / 4)).ball.velocityX * 2000 = -200 ∧
    (update ratMath (start ratMath idle 0 (1 / 2) (3 / 4)) 2000 (1 / 2) (1 / 4)).scores =
      { left := 0, right := 1 } ∧
    (update ratMath (start ratMath idle 0 (1 / 2) (3 / 4)) 2000 (1 / 2) (1 / 4)).ball.x =
      idle.canvas.width / 2 ∧
    (update ratMath (start ratMath idle 0 (1 / 2) (3 / 4)) 2000 (1 / 2) (1 / 4)).ball.y =
      idle.canvas.height / 2 ∧
    (update ratMath (start ratMath idle 0 (1 / 2) (3 / 4)) 2000 (1 / 2) (1 / 4)).isPlaying = true := by
  have hidle : idle.isPlaying = false := new_isPlaying _ _ _ _ _ _
  have hx : (start ratMath idle 0 (1 / 2) (3 / 4)).ball.x +
      (start ratMath idle 0 (1 / 2) (3 / 4)).ball.velocityX * 2000 = -200 := by
    norm_num [idle, start, new, resizeCanvas, resetPositions, resetBall, ratMath,
      PADDLE_HEIGHT, PADDLE_WIDTH, INITIAL_BALL_SPEED]
  exact ⟨hidle, hx,
    ((start_spec ratMath idle 0 (1 / 2) (3 / 4)).2 hidle).2.2.2.2.2.2.2.2.2.2 2000 (1 / 2) (1 / 4)
      (by rw [hx]; norm_num)⟩

/-- C9: `pause()` acts only when the match is being played.  When `isPlaying`
is false the whole state is unchanged; when it is true `isPaused` is negated
and `isPlaying`, the canvas, the ball, both paddles and the scores are
unchanged.  Hence two consecutive `pause()` calls return `isPlaying`,
`isPaused`, the ball, the paddles and the scores to what they were; only
`lastTime` may differ. -/
theorem pause_spec {β : Type} (g : PongGame β) (now now2 : β) :
    (g.isPlaying = false → pause g now = g) ∧
    (g.isPlaying = true →
      (pause g now).isPaused = !g.isPaused ∧
      (pause g now).isPlaying = g.isPlaying ∧
      (pause g now).canvas = g.canvas ∧
      (pause g now).ball = g.ball ∧
      (pause g now).paddles = g.paddles ∧
      (pause g now).scores = g.scores) ∧
    (pause (pause g now) now2).isPlaying = g.isPlaying ∧
    (pause (pause g now) now2).isPaused = g.isPaused ∧
    (pause (pause g now) now2).canvas = g.canvas ∧
    (pause (pause g now) now2).ball = g.ball ∧
    (pause (pause g now) now2).paddles = g.paddles ∧
    (pause (pause g now) now2).scores = g.scores := by
  cases hp : g.isPlaying <;> cases hq : g.isPaused <;> simp [pause, hp, hq]

/-- C9, witness: pausing the rally sets `isPaused`, a second `pause()` at a
later timestamp clears it again and sets `lastTime` to that timestamp. -/
theorem pause_spec_witness :
    rally.isPlaying = true ∧
    (pause rally 6000).isPaused = true ∧
    (pause (pause rally 6000) 9000).isPaused = false ∧
    (pause (pause rally 6000) 9000).ball = rally.ball ∧
    (pause (pause rally 6000) 9000).lastTime = 9000 ∧
    rally.lastTime = 5000 :=
  ⟨rfl, ((pause_spec rally 6000 9000).2.1 rfl).1, (pause_spec rally 6000 9000).2.2.2.1,
    (pause_spec rally 6000 9000).2.2.2.2.2.1, rfl, rfl⟩

/-- C10: `handleKeyDown` is processed only while playing and not paused.  If
`isPlaying` is false or `isPaused` is true the state is unchanged for every
key.  Otherwise 'w' and 'W' set the left paddle's velocity to `-PADDLE_SPEED`,
's' and 'S' set it to `+PADDLE_SPEED`, 'ArrowUp' sets the right paddle's
velocity to `-PADDLE_SPEED`, 'ArrowDown' sets it to `+PADDLE_SPEED`, and every
other key leaves the state unchanged; nothing but the one addressed paddle's
velocity changes. -/
theorem handleKeyDown_spec (g : PongGame α) (key : String) :
    ((g.isPlaying = false ∨ g.isPaused = true) → handleKeyDown g key = g) ∧
    (g.isPlaying = true → g.isPaused = false →
      ((key = "w" ∨ key = "W") → handleKeyDown g key = withLeftVelocity g (-PADDLE_SPEED)) ∧
      ((key = "s" ∨ key = "S") → handleKeyDown g key = withLeftVelocity g PADDLE_SPEED) ∧
      (key = "ArrowUp" → handleKeyDown g key = withRightVelocity g (-PADDLE_SPEED)) ∧
      (key = "ArrowDown" → handleKeyDown g key = withRightVelocity g PADDLE_SPEED) ∧
      (key ∉ ["w", "W", "s", "S", "ArrowUp", "ArrowDown"] → handleKeyDown g key = g)) := by
  constructor
  · rintro (h | h)
    · simp [handleKeyDown, h]
    · simp [handleKeyDown, h]
  · intro hp hq
    refine ⟨?_, ?_, ?_, ?_, ?_⟩
    · rintro (h | h) <;> subst h <;> simp [handleKeyDown, hp, hq, withLeftVelocity]
    · rintro (h | h) <;> subst h <;> simp [handleKeyDown, hp, hq, withLeftVelocity]
    · intro h; subst h; simp [handleKeyDown, hp, hq, withRightVelocity]
    · intro h; subst h; simp [handleKeyDown, hp, hq, withRightVelocity]
    · intro h
      simp only [List.mem_cons, List.mem_singleton, List.not_mem_nil, or_false, not_or] at h
      obtain ⟨h1, h2, h3, h4, h5, h6⟩ := h
      unfold handleKeyDown
      simp only [hp, hq]
      split <;> rfl

/-- C10, witness: in the rally 'w' sends the left paddle up at 0.4 and leaves
the rest of the state alone, 'ArrowDown' keeps the right paddle going down at
0.4, and 'x' does nothing; while paused 'w' does nothing either. -/
theorem handleKeyDown_spec_witness :
    (rally.isPlaying = true ∧ rally.isPaused = false) ∧
    handleKeyDown rally "w" = withLeftVelocity rally (-PADDLE_SPEED) ∧
    (handleKeyDown rally "w").paddles.left.velocity = -(2 / 5) ∧
    handleKeyDown rally "ArrowDown" = withRightVelocity rally PADDLE_SPEED ∧
    handleKeyDown rally "x" = rally ∧
    handleKeyDown pausedRally "w" = pausedRally :=
  ⟨⟨rfl, rfl⟩,
    ((handleKeyDown_spec rally "w").2 rfl rfl).1 (Or.inl rfl),
    by rw [((handleKeyDown_spec rally "w").2 rfl rfl).1 (Or.inl rfl)]
       norm_num [withLeftVelocity, PADDLE_SPEED],
    ((handleKeyDown_spec rally "ArrowDown").2 rfl rfl).2.2.2.1 rfl,
    ((handleKeyDown_spec rally "x").2 rfl rfl).2.2.2.2 (by decide),
    (handleKeyDown_spec pausedRally "w").1 (Or.inr rfl)⟩

/-- C11: `handleKeyUp` for either of a paddle's two keys zeroes that paddle's
velocity whatever key set it.  When `isPlaying` is true (paused or not) key-up
of 'w', 'W', 's' or 'S' sets the left paddle's velocity to 0 and key-up of
'ArrowUp' or 'ArrowDown' sets the right paddle's velocity to 0, leaving
everything else unchanged; so after key-down 'w', key-down 's', key-up 'w' the
left paddle has velocity 0 although 's', which had set it to `PADDLE_SPEED`, is
still held.  When `isPlaying` is false, or the key is any other key, the state
is unchanged. -/
theorem handleKeyUp_spec (g : PongGame α) (key : String) :
    (g.isPlaying = false → handleKeyUp g key = g) ∧
    (g.isPlaying = true →
      (key ∈ ["w", "W", "s", "S"] → handleKeyUp g key = withLeftVelocity g 0) ∧
      (key ∈ ["ArrowUp", "ArrowDown"] → handleKeyUp g key = withRightVelocity g 0) ∧
      (key ∉ ["w", "W", "s", "S", "ArrowUp", "ArrowDown"] → handleKeyUp g key = g)) ∧
    (g.isPlaying = true → g.isPaused = false →
      (handleKeyDown (handleKeyDown g "w") "s").paddles.left.velocity = PADDLE_SPEED ∧
      handleKeyUp (handleKeyDown (handleKeyDown g "w") "s") "w" = withLeftVelocity g 0) := by
  refine ⟨?_, ?_, ?_⟩
  · intro h
    simp [handleKeyUp, h]
  · intro hp
    refine ⟨?_, ?_, ?_⟩
    · intro h
      simp only [List.mem_cons, List.mem_singleton, List.not_mem_nil, or_false] at h
      rcases h with h | h | h | h <;> subst h <;> simp [handleKeyUp, hp, withLeftVelocity]
    · intro h
      simp only [List.mem_cons, List.mem_singleton, List.not_mem_nil, or_false] at h
      rcases h with h | h <;> subst h <;> simp [handleKeyUp, hp, withRightVelocity]
    · intro h
      simp only [List.mem_cons, List.mem_singleton, List.not_mem_nil, or_false, not_or] at h
      obtain ⟨h1, h2, h3, h4, h5, h6⟩ := h
      unfold handleKeyUp
      simp only [hp]
      split <;> rfl
  · intro hp hq
    simp [handleKeyUp, handleKeyDown, hp, hq, withLeftVelocity]

/-- C11, witness: in the rally, with the left paddle at rest, key-down 'w',
key-down 's', key-up 'w' gives the rally back although 's' is still held, and
key-up 'ArrowDown' stops the right paddle; key-up 'x' does nothing. -/
theorem handleKeyUp_spec_witness :
    (rally.isPlaying = true ∧ rally.isPaused = false) ∧
    (handleKeyDown (handleKeyDown rally "w") "s").paddles.left.velocity = PADDLE_SPEED ∧
    handleKeyUp (handleKeyDown (handleKeyDown rally "w") "s") "w" = withLeftVelocity rally 0 ∧
    handleKeyUp rally "ArrowDown" = withRightVelocity rally 0 ∧
    handleKeyUp rally "x" = rally :=
  ⟨⟨rfl, rfl⟩, ((handleKeyUp_spec rally "w").2.2 rfl rfl).1,
    ((handleKeyUp_spec rally "w").2.2 rfl rfl).2,
    ((handleKeyUp_spec rally "ArrowDown").2.1 rfl).2.1 (by decide),
    ((handleKeyUp_spec rally "x").2.1 rfl).2.2 (by decide)⟩

/-- C12 (as amended): for every container width `W` (a `clientWidth`: an
integer from 0 to 2147483647), any two states with `isPlaying` false and any
draws, after `resizeCanvas` the playfield is `W` by `floor(W*9/16)`, the
integer the canvas stores for `W*9/16`; the left paddle is at
`x = 2*PADDLE_WIDTH` and the right paddle at `x = W - 3*PADDLE_WIDTH`, both
paddles have `y = (floor(W*9/16) - PADDLE_HEIGHT)/2` and velocity 0, and the
ball is at `(W/2, floor(W*9/16)/2)`, the same in both runs.  When `isPlaying`
is true only the playfield size and the paddles' x change. -/
theorem resizeCanvas_spec [FloorRing α] (M : JSMath α) (g g2 : PongGame α) (W : ℕ)
    (r1 r2 r3 r4 : α) (hW : W ≤ 2147483647) :
    (g.isPlaying = false → g2.isPlaying = false →
      (resizeCanvas M g W r1 r2).canvas =
        { width := W, height := ((⌊(W : α) * 9 / 16⌋ : ℤ) : α) } ∧
      (resizeCanvas M g W r1 r2).paddles =
        { left :=
            { x := 2 * PADDLE_WIDTH
              y := (((⌊(W : α) * 9 / 16⌋ : ℤ) : α) - PADDLE_HEIGHT) / 2
              velocity := 0 }
          right :=
            { x := W - 3 * PADDLE_WIDTH
              y := (((⌊(W : α) * 9 / 16⌋ : ℤ) : α) - PADDLE_HEIGHT) / 2
              velocity := 0 } } ∧
      (resizeCanvas M g W r1 r2).ball.x = W / 2 ∧
      (resizeCanvas M g W r1 r2).ball.y = ((⌊(W : α) * 9 / 16⌋ : ℤ) : α) / 2 ∧
      (resizeCanvas M g2 W r3 r4).canvas = (resizeCanvas M g W r1 r2).canvas ∧
      (resizeCanvas M g2 W r3 r4).paddles = (resizeCanvas M g W r1 r2).paddles ∧
      (resizeCanvas M g2 W r3 r4).ball.x = (resizeCanvas M g W r1 r2).ball.x ∧
      (resizeCanvas M g2 W r3 r4).ball.y = (resizeCanvas M g W r1 r2).ball.y) ∧
    (g.isPlaying = true →
      resizeCanvas M g W r1 r2 =
        { g with
          canvas := { width := W, height := ((⌊(W : α) * 9 / 16⌋ : ℤ) : α) }
          paddles :=
            { left := { g.paddles.left with x := 2 * PADDLE_WIDTH }
              right := { g.paddles.right with x := W - 3 * PADDLE_WIDTH } } }) := by
  have hWα : (W : α) ≤ 2147483647 := by exact_mod_cast hW
  have hW0 : (0 : α) ≤ (W : α) := Nat.cast_nonneg W
  have ew : unsignedLong (W : α) 300 = W :=
    unsignedLong_of_floor (W : α) 300 W le_rfl (lt_add_one _) hW
  have e1 : (W : α) * (9 / 16) = (W : α) * 9 / 16 := by ring
  have eh : unsignedLong ((W : α) * (9 / 16)) 150 = ((⌊(W : α) * 9 / 16⌋ : ℤ) : α) := by
    rw [e1]
    exact unsignedLong_of_nonneg _ _ (by positivity) (by linarith)
  have e3 : (PADDLE_WIDTH : α) * 2 = 2 * PADDLE_WIDTH := mul_comm _ _
  have e4 : (PADDLE_WIDTH : α) * 3 = 3 * PADDLE_WIDTH := mul_comm _ _
  constructor
  · intro h h2
    simp [resizeCanvas, resetPositions, resetBall, h, h2, ew, eh, e3, e4]
  · intro h
    simp [resizeCanvas, h, ew, eh, e3, e4]

theorem floor_1000 : ⌊((1000 : ℕ) : ℚ) * 9 / 16⌋ = 562 := by
  rw [Int.floor_eq_iff]
  norm_num

/-- C12, witness: the idle game and the finished match `serve 10 false`,
resized to a 1000 pixel wide container with different draws, have the same
court, 1000 by 562, the same paddles, at y = 231, and the ball at
(500, 281). -/
theorem resizeCanvas_spec_witness :
    (idle.isPlaying = false ∧ (serve 10 false).isPlaying = false) ∧
    (resizeCanvas ratMath idle 1000 (1 / 2) (1 / 4)).canvas = { width := 1000, height := 562 } ∧
    (resizeCanvas ratMath idle 1000 (1 / 2) (1 / 4)).paddles.left.y = 231 ∧
    (resizeCanvas ratMath idle 1000 (1 / 2) (1 / 4)).ball.x = 500 ∧
    (resizeCanvas ratMath idle 1000 (1 / 2) (1 / 4)).ball.y = 281 ∧
    (resizeCanvas ratMath (serve 10 false) 1000 (1 / 8) (3 / 4)).paddles =
      (resizeCanvas ratMath idle 1000 (1 / 2) (1 / 4)).paddles ∧
    (resizeCanvas ratMath (serve 10 false) 1000 (1 / 8) (3 / 4)).ball.x =
      (resizeCanvas ratMath idle 1000 (1 / 2) (1 / 4)).ball.x ∧
    (resizeCanvas ratMath (serve 10 false) 1000 (1 / 8) (3 / 4)).ball.y =
      (resizeCanvas ratMath idle 1000 (1 / 2) (1 / 4)).ball.y := by
  have h := (resizeCanvas_spec ratMath idle (serve 10 false) 1000 (1 / 2) (1 / 4) (1 / 8) (3 / 4)
    (by norm_num)).1 (new_isPlaying _ _ _ _ _ _) rfl
  rw [floor_1000] at h
  obtain ⟨hc, hp, hx, hy, -, hp2, hx2, hy2⟩ := h
  have hc2 : (resizeCanvas ratMath idle 1000 (1 / 2) (1 / 4)).canvas =
      { width := 1000, height := 562 } := by
    rw [← Nat.cast_ofNat (R := ℚ) (n := 1000)]
    exact_mod_cast hc
  refine ⟨⟨new_isPlaying _ _ _ _ _ _, rfl⟩, hc2, ?_, ?_, ?_, hp2, hx2, hy2⟩
  · have := congrArg (fun p => p.left.y) hp
    simp only at this
    rw [← Nat.cast_ofNat (R := ℚ) (n := 1000), this]
    norm_num [PADDLE_HEIGHT]
  · rw [← Nat.cast_ofNat (R := ℚ) (n := 1000), hx]
    norm_num
  · rw [← Nat.cast_ofNat (R := ℚ) (n := 1000), hy]
    norm_num

theorem resize_1000 :
    (resizeCanvas ratMath idle 1000 (1 / 2) (1 / 4)).canvas.height = 562 ∧
    (resizeCanvas ratMath idle 1000 (1 / 2) (1 / 4)).ball.y = 281 ∧
    (resizeCanvas ratMath idle 1000 (1 / 2) (1 / 4)).paddles.left.y = 231 := by
  have hp : idle.isPlaying = false := new_isPlaying _ _ _ _ _ _
  norm_num [resizeCanvas, resetPositions, resetBall, hp, PADDLE_HEIGHT]

/-- C12, counterexample: the idle game resized to a 1000 pixel wide container.
`W*9/16` is 562.5 and the canvas stores 562: the court is 562 high, the ball
is at y = 281 and the paddles are at y = 231, where the claim has 562.5,
281.25 and 231.25. -/
theorem resizeCanvas_height_truncated :
    idle.isPlaying = false ∧
    (resizeCanvas ratMath idle 1000 (1 / 2) (1 / 4)).canvas.height = 562 ∧
    (resizeCanvas ratMath idle 1000 (1 / 2) (1 / 4)).ball.y = 281 ∧
    (resizeCanvas ratMath idle 1000 (1 / 2) (1 / 4)).paddles.left.y = 231 ∧
    ¬ (resizeCanvas ratMath idle 1000 (1 / 2) (1 / 4)).canvas.height = 1000 * 9 / 16 ∧
    ¬ (resizeCanvas ratMath idle 1000 (1 / 2) (1 / 4)).ball.y = 1000 * 9 / 32 ∧
    ¬ (resizeCanvas ratMath idle 1000 (1 / 2) (1 / 4)).paddles.left.y =
        (1000 * 9 / 16 - PADDLE_HEIGHT) / 2 := by
  obtain ⟨hh, hy, hp⟩ := resize_1000
  refine ⟨new_isPlaying _ _ _ _ _ _, hh, hy, hp, ?_, ?_, ?_⟩
  · rw [hh]; norm_num
  · rw [hy]; norm_num
  · rw [hp]; norm_num [PADDLE_HEIGHT]

/-- The ball after `advance` when its integrated centre is in the box of the
moved left paddle. -/
theorem advance_ball_of_left_hit (g : PongGame α) (dt : α)
    (h : InBox (advance g dt).paddles.left
      (g.ball.x + g.ball.velocityX * dt) (g.ball.y + g.ball.velocityY * dt)) :
    (advance g dt).ball =
      { x := g.ball.x + g.ball.velocityX * dt
        y := g.ball.y + g.ball.velocityY * dt
        velocityX := -g.ball.velocityX
        velocityY :=
          ((g.ball.y + g.ball.velocityY * dt - (advance g dt).paddles.left.y) / PADDLE_HEIGHT
            - 0.5) * 2 * (g.ball.speed * BALL_SPEED_INCREASE)
        speed := g.ball.speed * BALL_SPEED_INCREASE } := by
  simp only [advance, InBox] at h ⊢
  have hin : ∀ b : Ball α, b.x = g.ball.x + g.ball.velocityX * dt →
      b.y = g.ball.y + g.ball.velocityY * dt →
      inPaddle b (movePaddle g.canvas g.paddles.left dt).x
        (movePaddle g.canvas g.paddles.left dt).y = true := by
    intro b hx hy
    simp only [inPaddle, hx, hy, decide_eq_true_eq, ge_iff_le]
    exact h
  split_ifs <;> simp only [collide] <;> rw [if_pos (hin _ rfl rfl)] <;> rfl

/-- The ball after `advance` when its integrated centre is outside the box of
the moved left paddle and in the box of the moved right paddle. -/
theorem advance_ball_of_right_hit (g : PongGame α) (dt : α)
    (hl : ¬ InBox (advance g dt).paddles.left
      (g.ball.x + g.ball.velocityX * dt) (g.ball.y + g.ball.velocityY * dt))
    (h : InBox (advance g dt).paddles.right
      (g.ball.x + g.ball.velocityX * dt) (g.ball.y + g.ball.velocityY * dt)) :
    (advance g dt).ball =
      { x := g.ball.x + g.ball.velocityX * dt
        y := g.ball.y + g.ball.velocityY * dt
        velocityX := -g.ball.velocityX
        velocityY :=
          ((g.ball.y + g.ball.velocityY * dt - (advance g dt).paddles.right.y) / PADDLE_HEIGHT
            - 0.5) * 2 * (g.ball.speed * BALL_SPEED_INCREASE)
        speed := g.ball.speed * BALL_SPEED_INCREASE } := by
  simp only [advance, InBox] at hl h ⊢
  have hout : ∀ b : Ball α, b.x = g.ball.x + g.ball.velocityX * dt →
      b.y = g.ball.y + g.ball.velocityY * dt →
      ¬ inPaddle b (movePaddle g.canvas g.paddles.left dt).x
        (movePaddle g.canvas g.paddles.left dt).y = true := by
    intro b hx hy
    simp only [inPaddle, hx, hy, decide_eq_true_eq, ge_iff_le]
    exact hl
  have hin : ∀ b : Ball α, b.x = g.ball.x + g.ball.velocityX * dt →
      b.y = g.ball.y + g.ball.velocityY * dt →
      inPaddle b (movePaddle g.canvas g.paddles.right dt).x
        (movePaddle g.canvas g.paddles.right dt).y = true := by
    intro b hx hy
    simp only [inPaddle, hx, hy, decide_eq_true_eq, ge_iff_le]
    exact h
  split_ifs <;> simp only [collide] <;>
    rw [if_neg (hout _ rfl rfl), if_pos (hin _ rfl rfl)] <;> rfl

/-- The ball after `advance` when its integrated centre is in neither moved
paddle's box: integrated, and bounced off a wall if it is at or beyond one. -/
theorem advance_ball_of_miss (g : PongGame α) (dt : α)
    (hl : ¬ InBox (advance g dt).paddles.left
      (g.ball.x + g.ball.velocityX * dt) (g.ball.y + g.ball.velocityY * dt))
    (hr : ¬ InBox (advance g dt).paddles.right
      (g.ball.x + g.ball.velocityX * dt) (g.ball.y + g.ball.velocityY * dt)) :
    (advance g dt).ball =
      { x := g.ball.x + g.ball.velocityX * dt
        y := g.ball.y + g.ball.velocityY * dt
        velocityX := g.ball.velocityX
        velocityY :=
          if g.ball.y + g.ball.velocityY * dt ≤ 0 ∨
              g.ball.y + g.ball.velocityY * dt ≥ g.canvas.height then
            -g.ball.velocityY
          else g.ball.velocityY
        speed := g.ball.speed } := by
  simp only [advance, InBox] at hl hr ⊢
  have hout : ∀ b : Ball α, b.x = g.ball.x + g.ball.velocityX * dt →
      b.y = g.ball.y + g.ball.velocityY * dt →
      ¬ inPaddle b (movePaddle g.canvas g.paddles.left dt).x
        (movePaddle g.canvas g.paddles.left dt).y = true := by
    intro b hx hy
    simp only [inPaddle, hx, hy, decide_eq_true_eq, ge_iff_le]
    exact hl
  have hout2 : ∀ b : Ball α, b.x = g.ball.x + g.ball.velocityX * dt →
      b.y = g.ball.y + g.ball.velocityY * dt →
      ¬ inPaddle b (movePaddle g.canvas g.paddles.right dt).x
        (movePaddle g.canvas g.paddles.right dt).y = true := by
    intro b hx hy
    simp only [inPaddle, hx, hy, decide_eq_true_eq, ge_iff_le]
    exact hr
  split_ifs <;> simp only [collide] <;>
    rw [if_neg (hout _ rfl rfl), if_neg (hout2 _ rfl rfl)]

/-- C16: when `update(deltaTime)` has neither a paddle hit nor a scoring event,
the ball's position after it is exactly
`(x + velocityX*deltaTime, y + velocityY*deltaTime)`, with no clamping,
`velocityX` and `speed` are unchanged, and `velocityY` is negated if the new
y is `<= 0` or `>= canvas.height` and unchanged otherwise. -/
theorem update_free_flight (M : JSMath α) (g : PongGame α) (dt r1 r2 : α)
    (hl : ¬ InBox (update M g dt r1 r2).paddles.left
      (g.ball.x + g.ball.velocityX * dt) (g.ball.y + g.ball.velocityY * dt))
    (hr : ¬ InBox (update M g dt r1 r2).paddles.right
      (g.ball.x + g.ball.velocityX * dt) (g.ball.y + g.ball.velocityY * dt))
    (h0 : 0 < g.ball.x + g.ball.velocityX * dt)
    (hw : g.ball.x + g.ball.velocityX * dt < g.canvas.width) :
    (update M g dt r1 r2).ball.x = g.ball.x + g.ball.velocityX * dt ∧
    (update M g dt r1 r2).ball.y = g.ball.y + g.ball.velocityY * dt ∧
    (update M g dt r1 r2).ball.velocityX = g.ball.velocityX ∧
    (update M g dt r1 r2).ball.speed = g.ball.speed ∧
    (update M g dt r1 r2).ball.velocityY =
      (if g.ball.y + g.ball.velocityY * dt ≤ 0 ∨
          g.ball.y + g.ball.velocityY * dt ≥ g.canvas.height then
        -g.ball.velocityY
      else g.ball.velocityY) := by
  rw [update_of_no_score M g dt r1 r2 h0 hw] at hl hr ⊢
  rw [advance_ball_of_miss g dt hl hr]
  exact ⟨rfl, rfl, rfl, rfl, rfl⟩

theorem nearWall_paddles :
    (update ratMath nearWall 100 (1 / 2) (1 / 4)).paddles =
      { left := { x := 20, y := 175, velocity := 0 }
        right := { x := 770, y := 175, velocity := 0 } } := by
  rw [(update_frame ratMath nearWall 100 (1 / 2) (1 / 4)).2.1]
  norm_num [advance, movePaddle, nearWall, PADDLE_HEIGHT]

/-- C16, witness: near the top wall a frame of 100 ms takes the ball from
(400, 10) to (424, -8), above the court, where it stays; `velocityY` turns
from -0.18 to 0.18, `velocityX` and `speed` stay. -/
theorem update_free_flight_witness :
    (update ratMath nearWall 100 (1 / 2) (1 / 4)).ball.x = 424 ∧
    (update ratMath nearWall 100 (1 / 2) (1 / 4)).ball.y = -8 ∧
    (update ratMath nearWall 100 (1 / 2) (1 / 4)).ball.velocityX = 6 / 25 ∧
    (update ratMath nearWall 100 (1 / 2) (1 / 4)).ball.speed = 3 / 10 ∧
    (update ratMath nearWall 100 (1 / 2) (1 / 4)).ball.velocityY = 9 / 50 := by
  have h := update_free_flight ratMath nearWall 100 (1 / 2) (1 / 4)
    (by rw [nearWall_paddles]; norm_num [InBox, nearWall, PADDLE_WIDTH, PADDLE_HEIGHT])
    (by rw [nearWall_paddles]; norm_num [InBox, nearWall, PADDLE_WIDTH, PADDLE_HEIGHT])
    (by norm_num [nearWall]) (by norm_num [nearWall])
  obtain ⟨hx, hy, hvx, hs, hvy⟩ := h
  refine ⟨?_, ?_, ?_, ?_, ?_⟩
  · rw [hx]; norm_num [nearWall]
  · rw [hy]; norm_num [nearWall]
  · rw [hvx]; norm_num [nearWall]
  · rw [hs]; norm_num [nearWall]
  · rw [hvy]; norm_num [nearWall]

theorem run_invariant [FloorRing α] (M : JSMath α) (P : PongGame α → Prop)
    (hstep : ∀ g e, P g → P (step M g e)) (es : List (Event α)) :
    ∀ g, P g → P (run M g es) := by
  induction es with
  | nil => intro g h; exact h
  | cons e es ih => intro g h; exact ih _ (hstep g e h)

/-- Induction over the reachable states: a property of every constructed game
that every event handler preserves holds in every reachable state. -/
theorem reachable_invariant [FloorRing α] (M : JSMath α) (P : PongGame α → Prop)
    (hnew : ∀ w r1 r2 r3 r4, P (new M w r1 r2 r3 r4))
    (hstep : ∀ g e, P g → P (step M g e)) :
    ∀ g, Reachable M g → P g := by
  rintro g ⟨w, r1, r2, r3, r4, es, rfl⟩
  exact run_invariant M P hstep es _ (hnew w r1 r2 r3 r4)

/-- The fields `handleKeyDown` never writes. -/
theorem handleKeyDown_frame (g : PongGame α) (key : String) :
    (handleKeyDown g key).canvas = g.canvas ∧
    (handleKeyDown g key).ball = g.ball ∧
    (handleKeyDown g key).scores = g.scores ∧
    (handleKeyDown g key).isPlaying = g.isPlaying ∧
    (handleKeyDown g key).isPaused = g.isPaused ∧
    (handleKeyDown g key).paddles.left.x = g.paddles.left.x ∧
    (handleKeyDown g key).paddles.left.y = g.paddles.left.y ∧
    (handleKeyDown g key).paddles.right.x = g.paddles.right.x ∧
    (handleKeyDown g key).paddles.right.y = g.paddles.right.y := by
  unfold handleKeyDown
  split
  · simp
  · split <;> simp

/-- The fields `handleKeyUp` never writes. -/
theorem handleKeyUp_frame (g : PongGame α) (key : String) :
    (handleKeyUp g key).canvas = g.canvas ∧
    (handleKeyUp g key).ball = g.ball ∧
    (handleKeyUp g key).scores = g.scores ∧
    (handleKeyUp g key).isPlaying = g.isPlaying ∧
    (handleKeyUp g key).isPaused = g.isPaused ∧
    (handleKeyUp g key).paddles.left.x = g.paddles.left.x ∧
    (handleKeyUp g key).paddles.left.y = g.paddles.left.y ∧
    (handleKeyUp g key).paddles.right.x = g.paddles.right.x ∧
    (handleKeyUp g key).paddles.right.y = g.paddles.right.y := by
  unfold handleKeyUp
  split
  · simp
  · split <;> simp

/-- The fields `pause` never writes. -/
theorem pause_frame {β : Type} (g : PongGame β) (now : β) :
    (pause g now).canvas = g.canvas ∧
    (pause g now).ball = g.ball ∧
    (pause g now).scores = g.scores ∧
    (pause g now).isPlaying = g.isPlaying ∧
    (pause g now).paddles = g.paddles := by
  cases hp : g.isPlaying <;> cases hq : g.isPaused <;> simp [pause, hp, hq]

/-- The speed of the ball after `update` is its speed before, or that times
`BALL_SPEED_INCREASE`, or `INITIAL_BALL_SPEED`. -/
theorem update_ball_speed (M : JSMath α) (g : PongGame α) (dt r1 r2 : α) :
    (update M g dt r1 r2).ball.speed = g.ball.speed ∨
    (update M g dt r1 r2).ball.speed = g.ball.speed * BALL_SPEED_INCREASE ∨
    (update M g dt r1 r2).ball.speed = INITIAL_BALL_SPEED := by
  have hadv : (advance g dt).ball.speed = g.ball.speed ∨
      (advance g dt).ball.speed = g.ball.speed * BALL_SPEED_INCREASE := by
    by_cases hl : InBox (advance g dt).paddles.left
        (g.ball.x + g.ball.velocityX * dt) (g.ball.y + g.ball.velocityY * dt)
    · right; rw [advance_ball_of_left_hit g dt hl]
    · by_cases hr : InBox (advance g dt).paddles.right
          (g.ball.x + g.ball.velocityX * dt) (g.ball.y + g.ball.velocityY * dt)
      · right; rw [advance_ball_of_right_hit g dt hl hr]
      · left; rw [advance_ball_of_miss g dt hl hr]
  unfold update
  simp only []
  split_ifs
  · right; right; simp [resetBall]
  · right; right; simp [resetBall]
  · rcases hadv with h | h
    · exact Or.inl h
    · exact Or.inr (Or.inl h)

/-- In every reachable state the ball's scalar speed is positive. -/
theorem reachable_speed_pos [FloorRing α] (M : JSMath α) (g : PongGame α) (h : Reachable M g) :
    0 < g.ball.speed := by
  have hI : (0 : α) < INITIAL_BALL_SPEED := by norm_num [INITIAL_BALL_SPEED]
  have hB : (0 : α) < BALL_SPEED_INCREASE := by norm_num [BALL_SPEED_INCREASE]
  refine reachable_invariant M (fun g => 0 < g.ball.speed) ?_ ?_ g h
  · intro w r1 r2 r3 r4
    exact hI
  · intro g e hg
    cases e with
    | start now r1 r2 =>
      show 0 < (start M g now r1 r2).ball.speed
      unfold start
      split
      · exact hI
      · exact hg
    | pause now =>
      show 0 < (pause g now).ball.speed
      rw [(pause_frame g now).2.1]; exact hg
    | keyDown key =>
      show 0 < (handleKeyDown g key).ball.speed
      rw [(handleKeyDown_frame g key).2.1]; exact hg
    | keyUp key =>
      show 0 < (handleKeyUp g key).ball.speed
      rw [(handleKeyUp_frame g key).2.1]; exact hg
    | resize w r1 r2 =>
      show 0 < (resizeCanvas M g w r1 r2).ball.speed
      unfold resizeCanvas
      simp only []
      split
      · exact hI
      · exact hg
    | frame t r1 r2 =>
      show 0 < (gameLoop M g t r1 r2).ball.speed
      unfold gameLoop
      split
      · exact hg
      · rcases update_ball_speed M { g with lastTime := t } (t - g.lastTime) r1 r2 with h | h | h
        · rw [h]; exact hg
        · rw [h]; exact mul_pos hg hB
        · rw [h]; exact hI

/-- The bound on the velocity a bounce assigns, in terms of the hit fraction
`h`, for a positive speed `s`. -/
theorem bounce_velocity_bound (h s : α) (h0 : 0 ≤ h) (h1 : h ≤ 1) (hs : 0 < s) :
    |(h - 0.5) * 2 * s| ≤ s ∧ (|(h - 0.5) * 2 * s| = s ↔ h = 0 ∨ h = 1) := by
  have e : (h - 0.5) * 2 * s = 2 * h * s - s := by
    have half : (0.5 : α) = 1 / 2 := by norm_num
    rw [half]; ring
  rw [e]
  have hhs : 0 ≤ h * s := mul_nonneg h0 hs.le
  have hhs1 : 0 ≤ (1 - h) * s := mul_nonneg (sub_nonneg.mpr h1) hs.le
  constructor
  · rw [abs_le]
    constructor <;> nlinarith
  · rw [abs_eq hs.le]
    constructor
    · rintro (hv | hv)
      · right
        have : (h - 1) * s = 0 := by linear_combination hv / 2
        rcases mul_eq_zero.mp this with h' | h'
        · linarith
        · exact absurd h' hs.ne'
      · left
        have : h * s = 0 := by linear_combination hv / 2
        rcases mul_eq_zero.mp this with h' | h'
        · exact h'
        · exact absurd h' hs.ne'
    · rintro (hv | hv)
      · right; rw [hv]; ring
      · left; rw [hv]; ring

/-- C17: whenever `update` detects a paddle collision (in a state the program
can be in), the hit fraction `(ball.y - paddle.y)/PADDLE_HEIGHT` of the paddle
it bounces off (the left one if the ball is in its box, else the right one)
lies in `[0, 1]`; the `velocityY` the bounce assigns is
`(hitFraction - 0.5)*2*speed` for the new, already multiplied speed, which is
non-negative, and satisfies `|velocityY| <= speed`, with equality exactly when
the ball's centre is at the paddle's top or bottom edge. -/
theorem bounce_hit_fraction [FloorRing α] (M : JSMath α) (g : PongGame α) (hreach : Reachable M g)
    (dt : α) (p : Paddle α)
    (hdet :
      (p = (advance g dt).paddles.left ∧
        InBox p (g.ball.x + g.ball.velocityX * dt) (g.ball.y + g.ball.velocityY * dt)) ∨
      (p = (advance g dt).paddles.right ∧
        ¬ InBox (advance g dt).paddles.left
          (g.ball.x + g.ball.velocityX * dt) (g.ball.y + g.ball.velocityY * dt) ∧
        InBox p (g.ball.x + g.ball.velocityX * dt) (g.ball.y + g.ball.velocityY * dt))) :
    (0 ≤ (g.ball.y + g.ball.velocityY * dt - p.y) / PADDLE_HEIGHT ∧
      (g.ball.y + g.ball.velocityY * dt - p.y) / PADDLE_HEIGHT ≤ 1) ∧
    (advance g dt).ball.speed = g.ball.speed * BALL_SPEED_INCREASE ∧
    (advance g dt).ball.velocityY =
      ((g.ball.y + g.ball.velocityY * dt - p.y) / PADDLE_HEIGHT - 0.5) * 2 *
        (advance g dt).ball.speed ∧
    0 ≤ (advance g dt).ball.speed ∧
    |(advance g dt).ball.velocityY| ≤ (advance g dt).ball.speed ∧
    (|(advance g dt).ball.velocityY| = (advance g dt).ball.speed ↔
      (g.ball.y + g.ball.velocityY * dt = p.y ∨
        g.ball.y + g.ball.velocityY * dt = p.y + PADDLE_HEIGHT)) := by
  have hPH : (0 : α) < PADDLE_HEIGHT := by norm_num [PADDLE_HEIGHT]
  have hs : 0 < g.ball.speed * BALL_SPEED_INCREASE :=
    mul_pos (reachable_speed_pos M g hreach) (by norm_num [BALL_SPEED_INCREASE])
  have hbox : InBox p (g.ball.x + g.ball.velocityX * dt) (g.ball.y + g.ball.velocityY * dt) := by
    rcases hdet with ⟨-, h⟩ | ⟨-, -, h⟩ <;> exact h
  have hball : (advance g dt).ball.speed = g.ball.speed * BALL_SPEED_INCREASE ∧
      (advance g dt).ball.velocityY =
        ((g.ball.y + g.ball.velocityY * dt - p.y) / PADDLE_HEIGHT - 0.5) * 2 *
          (g.ball.speed * BALL_SPEED_INCREASE) := by
    rcases hdet with ⟨hp, h⟩ | ⟨hp, hl, h⟩
    · rw [hp] at h
      rw [advance_ball_of_left_hit g dt h, hp]
      exact ⟨rfl, rfl⟩
    · rw [hp] at h
      rw [advance_ball_of_right_hit g dt hl h, hp]
      exact ⟨rfl, rfl⟩
  obtain ⟨-, -, hy0, hy1⟩ := hbox
  have h0 : 0 ≤ (g.ball.y + g.ball.velocityY * dt - p.y) / PADDLE_HEIGHT :=
    div_nonneg (sub_nonneg.mpr hy0) hPH.le
  have h1 : (g.ball.y + g.ball.velocityY * dt - p.y) / PADDLE_HEIGHT ≤ 1 := by
    rw [div_le_one hPH]; linarith
  obtain ⟨hb, hiff⟩ := bounce_velocity_bound _ _ h0 h1 hs
  refine ⟨⟨h0, h1⟩, hball.1, ?_, ?_, ?_, ?_⟩
  · rw [hball.2, hball.1]
  · rw [hball.1]; exact hs.le
  · rw [hball.2, hball.1]; exact hb
  · rw [hball.2, hball.1, hiff, div_eq_zero_iff, div_eq_one_iff_eq hPH.ne']
    constructor
    · rintro (h | h)
      · rcases h with h | h
        · left; linarith
        · exact absurd h hPH.ne'
      · right; linarith
    · rintro (h | h)
      · left; left; linarith
      · right; linarith

/-- C17, witness: a match started on the 800 by 450 court and a frame of
1250 ms: the ball reaches (775, 225), the middle of the right paddle's box;
the hit fraction is 1/2, the new speed 0.33 and the new `velocityY` 0. -/
theorem bounce_hit_fraction_witness :
    Reachable ratMath (serve 0 true) ∧
    ((serve 0 true).ball.y + (serve 0 true).ball.velocityY * 1250 - 175) / PADDLE_HEIGHT
      = 1 / 2 ∧
    (advance (serve 0 true) 1250).ball.speed = 33 / 100 ∧
    (advance (serve 0 true) 1250).ball.velocityY = 0 ∧
    |(advance (serve 0 true) 1250).ball.velocityY| ≤ (advance (serve 0 true) 1250).ball.speed := by
  have hreach : Reachable ratMath (serve 0 true) :=
    ⟨800, 1 / 2, 1 / 4, 1 / 2, 1 / 4, [Event.start 0 (1 / 2) (1 / 4)], serve_reached⟩
  have hp : ({ x := 770, y := 175, velocity := 0 } : Paddle ℚ) =
      (advance (serve 0 true) 1250).paddles.right := by
    norm_num [advance, movePaddle, serve, PADDLE_HEIGHT]
  have hl : ¬ InBox (advance (serve 0 true) 1250).paddles.left
      ((serve 0 true).ball.x + (serve 0 true).ball.velocityX * 1250)
      ((serve 0 true).ball.y + (serve 0 true).ball.velocityY * 1250) := by
    norm_num [InBox, advance, movePaddle, serve, PADDLE_HEIGHT, PADDLE_WIDTH]
  have h := bounce_hit_fraction ratMath (serve 0 true) hreach 1250
    { x := 770, y := 175, velocity := 0 }
    (Or.inr ⟨hp, hl, by norm_num [InBox, serve, PADDLE_HEIGHT, PADDLE_WIDTH]⟩)
  obtain ⟨-, hs, hv, -, hle, -⟩ := h
  refine ⟨hreach, by norm_num [serve, PADDLE_HEIGHT], ?_, ?_, hle⟩
  · rw [hs]; norm_num [serve, BALL_SPEED_INCREASE]
  · rw [hv, hs]; norm_num [serve, PADDLE_HEIGHT]

/-- In every reachable state the paddles are at the horizontal positions
`resizeCanvas` gives them for the current canvas width. -/
theorem reachable_layout [FloorRing α] (M : JSMath α) (g : PongGame α) (h : Reachable M g) :
    g.paddles.left.x = PADDLE_WIDTH * 2 ∧
    g.paddles.right.x = g.canvas.width - PADDLE_WIDTH * 3 := by
  refine reachable_invariant M
    (fun g => g.paddles.left.x = PADDLE_WIDTH * 2 ∧
      g.paddles.right.x = g.canvas.width - PADDLE_WIDTH * 3) ?_ ?_ g h
  · intro w r1 r2 r3 r4
    exact ⟨rfl, rfl⟩
  · intro g e hg
    cases e with
    | start now r1 r2 =>
      simp only [step]
      unfold start
      split
      · exact hg
      · exact hg
    | pause now =>
      simp only [step]
      rw [(pause_frame g now).2.2.2.2, (pause_frame g now).1]; exact hg
    | keyDown key =>
      obtain ⟨hc, -, -, -, -, hlx, -, hrx, -⟩ := handleKeyDown_frame g key
      simp only [step]
      rw [hlx, hrx, hc]; exact hg
    | keyUp key =>
      obtain ⟨hc, -, -, -, -, hlx, -, hrx, -⟩ := handleKeyUp_frame g key
      simp only [step]
      rw [hlx, hrx, hc]; exact hg
    | resize w r1 r2 =>
      simp only [step]
      unfold resizeCanvas
      simp only []
      split
      · exact ⟨rfl, rfl⟩
      · exact ⟨rfl, rfl⟩
    | frame t r1 r2 =>
      simp only [step]
      unfold gameLoop
      split
      · exact hg
      · obtain ⟨hc, hp, -, -⟩ := update_frame M { g with lastTime := t } (t - g.lastTime) r1 r2
        rw [hp, hc]
        exact hg

/-- C18: at most one paddle bounce is applied per update, with the left paddle
taking precedence.  If after integration the ball's centre lies inside both
paddles' boxes, the collision loop multiplies `speed` by 1.1 once, negates
`velocityX` once and computes `velocityY` from the left paddle's y.  With the
paddle offsets set by `resizeCanvas` (left x = 2*PADDLE_WIDTH = 20, right
x = width - 3*PADDLE_WIDTH = width - 30) such a double overlap needs
`40 <= canvas.width <= 60`, and no point is scored in that update, so the
bounced ball is the ball after `update`. -/
theorem bounce_left_first (M : JSMath α) (g : PongGame α) (dt r1 r2 : α)
    (hl : InBox (advance g dt).paddles.left
      (g.ball.x + g.ball.velocityX * dt) (g.ball.y + g.ball.velocityY * dt))
    (hr : InBox (advance g dt).paddles.right
      (g.ball.x + g.ball.velocityX * dt) (g.ball.y + g.ball.velocityY * dt)) :
    ((advance g dt).ball.speed = 1.1 * g.ball.speed ∧
      (advance g dt).ball.velocityX = -g.ball.velocityX ∧
      (advance g dt).ball.velocityY =
        ((g.ball.y + g.ball.velocityY * dt - (advance g dt).paddles.left.y) / PADDLE_HEIGHT
          - 0.5) * 2 * (1.1 * g.ball.speed)) ∧
    (g.paddles.left.x = 20 → g.paddles.right.x = g.canvas.width - 30 →
      (40 ≤ g.canvas.width ∧ g.canvas.width ≤ 60) ∧
      update M g dt r1 r2 = advance g dt) := by
  constructor
  · rw [advance_ball_of_left_hit g dt hl]
    have e : g.ball.speed * BALL_SPEED_INCREASE = 1.1 * g.ball.speed := by
      rw [mul_comm]; rfl
    exact ⟨e, rfl, by rw [← e]⟩
  · intro hlx hrx
    have hlx2 : (advance g dt).paddles.left.x = 20 := hlx
    have hrx2 : (advance g dt).paddles.right.x = g.canvas.width - 30 := hrx
    obtain ⟨a1, a2, -, -⟩ := hl
    obtain ⟨b1, b2, -, -⟩ := hr
    rw [hlx2] at a1 a2
    rw [hrx2] at b1 b2
    have hPW : (PADDLE_WIDTH : α) = 10 := rfl
    rw [hPW] at a2 b2
    have hw40 : 40 ≤ g.canvas.width := by linarith
    have hw60 : g.canvas.width ≤ 60 := by linarith
    refine ⟨⟨hw40, hw60⟩, update_of_no_score M g dt r1 r2 (by linarith) (by linarith)⟩

theorem tinyCourt_reached :
    start ratMath (new ratMath 48 (1 / 2) (1 / 4) (1 / 2) (1 / 4)) 0 (1 / 2) (1 / 4) = tinyCourt := by
  norm_num [start, new, resizeCanvas, resetPositions, resetBall, ratMath, tinyCourt,
    PADDLE_HEIGHT, PADDLE_WIDTH, INITIAL_BALL_SPEED]

theorem tinyCourt_paddles :
    (advance tinyCourt 10).paddles =
      { left := { x := 20, y := 0, velocity := 0 }
        right := { x := 18, y := 0, velocity := 0 } } := by
  norm_num [advance, movePaddle, tinyCourt, PADDLE_HEIGHT]

/-- C18, witness: on the court of a 48 pixel wide container, as the
constructor and `start` build it, a frame of 10 ms puts the ball at (27, 13.5),
inside both paddles' boxes (x from 20 to 30 and from 18 to 28, y from 0 to
100); after `update` the speed is 0.33, `velocityX` is -0.3 and `velocityY` is
`(0.135 - 0.5)*2*0.33`, and the width is between 40 and 60. -/
theorem bounce_left_first_witness :
    start ratMath (new ratMath 48 (1 / 2) (1 / 4) (1 / 2) (1 / 4)) 0 (1 / 2) (1 / 4) = tinyCourt ∧
    (update ratMath tinyCourt 10 (1 / 2) (1 / 4)).ball.speed = 33 / 100 ∧
    (update ratMath tinyCourt 10 (1 / 2) (1 / 4)).ball.velocityX = -(3 / 10) ∧
    (update ratMath tinyCourt 10 (1 / 2) (1 / 4)).ball.velocityY = -(2409 / 10000) ∧
    (40 ≤ tinyCourt.canvas.width ∧ tinyCourt.canvas.width ≤ 60) := by
  have h := bounce_left_first ratMath tinyCourt 10 (1 / 2) (1 / 4)
    (by rw [tinyCourt_paddles]; norm_num [InBox, tinyCourt, PADDLE_WIDTH, PADDLE_HEIGHT])
    (by rw [tinyCourt_paddles]; norm_num [InBox, tinyCourt, PADDLE_WIDTH, PADDLE_HEIGHT])
  obtain ⟨⟨hs, hvx, hvy⟩, hlay⟩ := h
  obtain ⟨hw, hu⟩ := hlay rfl (by norm_num [tinyCourt])
  rw [tinyCourt_paddles] at hvy
  refine ⟨tinyCourt_reached, ?_, ?_, ?_, hw⟩
  · rw [hu, hs]; norm_num [tinyCourt]
  · rw [hu, hvx]; norm_num [tinyCourt]
  · rw [hu, hvy]; norm_num [tinyCourt, PADDLE_HEIGHT]

/-- The fields `resizeCanvas` never writes. -/
theorem resizeCanvas_frame [FloorRing α] (M : JSMath α) (g : PongGame α) (w r1 r2 : α) :
    (resizeCanvas M g w r1 r2).isPlaying = g.isPlaying ∧
    (resizeCanvas M g w r1 r2).isPaused = g.isPaused ∧
    (resizeCanvas M g w r1 r2).scores = g.scores ∧
    (resizeCanvas M g w r1 r2).lastTime = g.lastTime := by
  unfold resizeCanvas
  simp only []
  split
  · exact ⟨rfl, rfl, rfl, rfl⟩
  · exact ⟨rfl, rfl, rfl, rfl⟩

/-- The flags after `update`: `isPaused` is kept, and `isPlaying` can only go
from true to false. -/
theorem update_flags (M : JSMath α) (g : PongGame α) (dt r1 r2 : α) :
    (update M g dt r1 r2).isPaused = g.isPaused ∧
    ((update M g dt r1 r2).isPlaying = true → g.isPlaying = true) := by
  refine ⟨(update_frame M g dt r1 r2).2.2.1, ?_⟩
  unfold update checkWinner
  simp only []
  split_ifs <;> simp [resetBall, advance]

/-- C19: in every state reachable from construction by any sequence of start,
pause, key events, resizes and frame callbacks, `isPaused` implies `isPlaying`.
So a frame callback that finishes a match is never one of a paused match, and
`start()`, which does not itself write `isPaused`, never begins a match that
is already paused. -/
theorem paused_implies_playing [FloorRing α] (M : JSMath α) (g : PongGame α) (h : Reachable M g) :
    (g.isPaused = true → g.isPlaying = true) ∧
    (∀ t r1 r2 : α, g.isPlaying = true → (gameLoop M g t r1 r2).isPlaying = false →
      g.isPaused = false ∧ (gameLoop M g t r1 r2).isPaused = false) ∧
    (∀ now r1 r2 : α, (start M g now r1 r2).isPaused = g.isPaused) ∧
    (∀ now r1 r2 : α, g.isPlaying = false →
      (start M g now r1 r2).isPlaying = true ∧ (start M g now r1 r2).isPaused = false) := by
  have hinv : g.isPaused = true → g.isPlaying = true := by
    refine reachable_invariant M (fun g => g.isPaused = true → g.isPlaying = true) ?_ ?_ g h
    · intro w r1 r2 r3 r4 hp
      simp [new, resizeCanvas, resetPositions, resetBall] at hp
    · intro g e hg
      cases e with
      | start now r1 r2 =>
        simp only [step]
        unfold start
        split
        · intro _; rfl
        · exact hg
      | pause now =>
        simp only [step]
        cases hp : g.isPlaying <;> cases hq : g.isPaused <;> simp_all [pause]
      | keyDown key =>
        obtain ⟨-, -, -, hp, hq, -⟩ := handleKeyDown_frame g key
        simp only [step]
        rw [hp, hq]; exact hg
      | keyUp key =>
        obtain ⟨-, -, -, hp, hq, -⟩ := handleKeyUp_frame g key
        simp only [step]
        rw [hp, hq]; exact hg
      | resize w r1 r2 =>
        obtain ⟨hp, hq, -, -⟩ := resizeCanvas_frame M g w r1 r2
        simp only [step]
        rw [hp, hq]; exact hg
      | frame t r1 r2 =>
        simp only [step]
        unfold gameLoop
        split
        · exact hg
        · rename_i hguard
          intro hq
          rw [(update_flags M _ _ _ _).1] at hq
          have hq2 : g.isPaused = true := hq
          simp [hq2] at hguard
  have hstart : ∀ now r1 r2 : α, (start M g now r1 r2).isPaused = g.isPaused := by
    intro now r1 r2
    unfold start
    split <;> rfl
  refine ⟨hinv, ?_, hstart, ?_⟩
  · intro t r1 r2 hp hfin
    have hq : g.isPaused = false := by
      cases hq : g.isPaused
      · rfl
      · have e : gameLoop M g t r1 r2 = g := by simp [gameLoop, hp, hq]
        rw [e, hp] at hfin
        exact absurd hfin (by simp)
    refine ⟨hq, ?_⟩
    unfold gameLoop
    simp only [hp, hq]
    exact (update_flags M _ _ _ _).1
  · intro now r1 r2 hp
    refine ⟨?_, ?_⟩
    · rw [start_of_not_playing M g now r1 r2 hp]; rfl
    · rw [hstart]
      cases hq : g.isPaused
      · rfl
      · rw [hinv hq] at hp
        exact absurd hp (by simp)

/-- C19, witness: the game constructed for an 800 pixel wide container, started
and then paused, is paused and being played. -/
theorem paused_implies_playing_witness :
    Reachable ratMath (run ratMath idle startThenPause) ∧
    (run ratMath idle startThenPause).isPaused = true ∧
    (run ratMath idle startThenPause).isPlaying = true :=
  have hreach : Reachable ratMath (run ratMath idle startThenPause) :=
    ⟨800, 1 / 2, 1 / 4, 1 / 2, 1 / 4, startThenPause, rfl⟩
  ⟨hreach, rfl, (paused_implies_playing ratMath _ hreach).1 rfl⟩

/-- One right-scoring call of `update`: the right score grows by one, the left
score stays, and the match is finished exactly when a score is then `>= 10`. -/
theorem update_right_point (M : JSMath α) (g : PongGame α) (dt r1 r2 : α)
    (h0 : g.ball.x + g.ball.velocityX * dt ≤ 0) :
    (update M g dt r1 r2).scores.left = g.scores.left ∧
    (update M g dt r1 r2).scores.right = g.scores.right + 1 ∧
    (update M g dt r1 r2).isPlaying =
      (if g.scores.left ≥ 10 ∨ g.scores.right + 1 ≥ 10 then false else g.isPlaying) := by
  unfold update
  simp only [advance_ball_x]
  rw [if_pos h0]
  refine ⟨by simp [resetBall, advance], by simp [resetBall, advance], ?_⟩
  unfold checkWinner
  simp only [resetBall, advance]
  split_ifs <;> rfl

/-- The score bounds are kept by one `update` of a match that is being
played. -/
theorem update_score_bounds (M : JSMath α) (g : PongGame α) (dt r1 r2 : α) (a b : ℕ)
    (hl : g.scores.left = a) (hr : g.scores.right = b) (ha : a ≤ 9) (hb : b ≤ 9) :
    ∃ a2 b2 : ℕ, (update M g dt r1 r2).scores.left = a2 ∧
      (update M g dt r1 r2).scores.right = b2 ∧ a2 ≤ 10 ∧ b2 ≤ 10 ∧ ¬ (a2 = 10 ∧ b2 = 10) ∧
      ((update M g dt r1 r2).isPlaying = true → a2 ≤ 9 ∧ b2 ≤ 9) := by
  have hca : ¬ ((a : α) ≥ 10) := by
    have : (a : α) ≤ 9 := by exact_mod_cast ha
    intro h; linarith
  have hcb : ¬ ((b : α) ≥ 10) := by
    have : (b : α) ≤ 9 := by exact_mod_cast hb
    intro h; linarith
  by_cases h0 : g.ball.x + g.ball.velocityX * dt ≤ 0
  · obtain ⟨el, er, ep⟩ := update_right_point M g dt r1 r2 h0
    refine ⟨a, b + 1, by rw [el, hl], by rw [er, hr]; push_cast; rfl, by omega, by omega,
      by omega, ?_⟩
    intro hp
    rw [ep, hl, hr] at hp
    by_cases h10 : (b : α) + 1 ≥ 10
    · simp [h10] at hp
    · have : ¬ (b + 1 ≥ 10) := by
        intro hge
        apply h10
        exact_mod_cast hge
      omega
  · by_cases hw : g.canvas.width ≤ g.ball.x + g.ball.velocityX * dt
    · obtain ⟨el, er, ep⟩ := update_left_point M g dt r1 r2 (not_le.mp h0) hw
      refine ⟨a + 1, b, by rw [el, hl]; push_cast; rfl, by rw [er, hr], by omega, by omega,
        by omega, ?_⟩
      intro hp
      rw [ep, hl, hr] at hp
      by_cases h10 : (a : α) + 1 ≥ 10
      · simp [h10] at hp
      · have : ¬ (a + 1 ≥ 10) := by
          intro hge
          apply h10
          exact_mod_cast hge
        omega
    · rw [update_of_no_score M g dt r1 r2 (not_le.mp h0) (not_le.mp hw)]
      exact ⟨a, b, hl, hr, by omega, by omega, by omega, fun _ => ⟨ha, hb⟩⟩

/-- C20: in every state reachable from construction by any sequence of start,
pause, key events, resizes and frame callbacks, both scores are integers in
`[0, 10]`, at most one of them equals 10, and whenever `isPlaying` is true
both scores are at most 9. -/
theorem score_bounds [FloorRing α] (M : JSMath α) (g : PongGame α) (h : Reachable M g) :
    ∃ a b : ℕ, g.scores.left = a ∧ g.scores.right = b ∧ a ≤ 10 ∧ b ≤ 10 ∧
      ¬ (a = 10 ∧ b = 10) ∧ (g.isPlaying = true → a ≤ 9 ∧ b ≤ 9) := by
  refine reachable_invariant M
    (fun g => ∃ a b : ℕ, g.scores.left = a ∧ g.scores.right = b ∧ a ≤ 10 ∧ b ≤ 10 ∧
      ¬ (a = 10 ∧ b = 10) ∧ (g.isPlaying = true → a ≤ 9 ∧ b ≤ 9)) ?_ ?_ g h
  · intro w r1 r2 r3 r4
    refine ⟨0, 0, ?_, ?_, by omega, by omega, by omega, fun _ => ⟨by omega, by omega⟩⟩
    · simp [new, resizeCanvas, resetPositions, resetBall]
    · simp [new, resizeCanvas, resetPositions, resetBall]
  · intro g e hg
    obtain ⟨a, b, hl, hr, ha, hb, hne, hplay⟩ := hg
    cases e with
    | start now r1 r2 =>
      simp only [step]
      cases hp : g.isPlaying
      · rw [start_of_not_playing M g now r1 r2 hp]
        refine ⟨0, 0, ?_, ?_, by omega, by omega, by omega, fun _ => ⟨by omega, by omega⟩⟩
        · simp [resetPositions, resetBall]
        · simp [resetPositions, resetBall]
      · have e : start M g now r1 r2 = g := by simp [start, hp]
        rw [e]
        exact ⟨a, b, hl, hr, ha, hb, hne, hplay⟩
    | pause now =>
      obtain ⟨-, -, hs, hp, -⟩ := pause_frame g now
      simp only [step]
      rw [hs, hp]
      exact ⟨a, b, hl, hr, ha, hb, hne, hplay⟩
    | keyDown key =>
      obtain ⟨-, -, hs, hp, -⟩ := handleKeyDown_frame g key
      simp only [step]
      rw [hs, hp]
      exact ⟨a, b, hl, hr, ha, hb, hne, hplay⟩
    | keyUp key =>
      obtain ⟨-, -, hs, hp, -⟩ := handleKeyUp_frame g key
      simp only [step]
      rw [hs, hp]
      exact ⟨a, b, hl, hr, ha, hb, hne, hplay⟩
    | resize w r1 r2 =>
      obtain ⟨hp, -, hs, -⟩ := resizeCanvas_frame M g w r1 r2
      simp only [step]
      rw [hs, hp]
      exact ⟨a, b, hl, hr, ha, hb, hne, hplay⟩
    | frame t r1 r2 =>
      simp only [step]
      unfold gameLoop
      split
      · exact ⟨a, b, hl, hr, ha, hb, hne, hplay⟩
      · rename_i hguard
        have hp : g.isPlaying = true := by
          cases hp : g.isPlaying
          · simp [hp] at hguard
          · rfl
        obtain ⟨h9a, h9b⟩ := hplay hp
        exact update_score_bounds M { g with lastTime := t } (t - g.lastTime) r1 r2 a b hl hr
          h9a h9b

/-- The frame callback of a match that is being played and is not paused sets
`lastTime` and calls `update` with the time since the last frame. -/
theorem gameLoop_of_playing (M : JSMath α) (g : PongGame α) (t r1 r2 : α)
    (hp : g.isPlaying = true) (hq : g.isPaused = false) :
    gameLoop M g t r1 r2 = update M { g with lastTime := t } (t - g.lastTime) r1 r2 := by
  simp [gameLoop, hp, hq]

theorem idle_started : start ratMath idle 0 (1 / 2) (1 / 4) = serve 0 true := serve_reached

theorem startThenPoint_scores :
    (run ratMath idle startThenPoint).scores.left = 1 ∧
    (run ratMath idle startThenPoint).scores.right = 0 := by
  show (gameLoop ratMath (start ratMath idle 0 (1 / 2) (1 / 4)) 2000 (1 / 2) (1 / 4)).scores.left = 1 ∧
    (gameLoop ratMath (start ratMath idle 0 (1 / 2) (1 / 4)) 2000 (1 / 2) (1 / 4)).scores.right = 0
  rw [idle_started, gameLoop_of_playing _ _ _ _ _ rfl rfl]
  obtain ⟨hl, hr, -⟩ := update_left_point ratMath { serve 0 true with lastTime := 2000 }
    (2000 - (serve 0 true).lastTime) (1 / 2) (1 / 4) (by norm_num [serve]) (by norm_num [serve])
  rw [hl, hr]
  norm_num [serve]

/-- C20, witness: the game constructed for an 800 pixel wide container,
started, after a frame that scores for the left side: the scores are 1 and 0,
integers within the bounds. -/
theorem score_bounds_witness :
    Reachable ratMath (run ratMath idle startThenPoint) ∧
    ((run ratMath idle startThenPoint).scores.left = 1 ∧
      (run ratMath idle startThenPoint).scores.right = 0) ∧
    ∃ a b : ℕ, (run ratMath idle startThenPoint).scores.left = a ∧
      (run ratMath idle startThenPoint).scores.right = b ∧ a ≤ 10 ∧ b ≤ 10 ∧
      ¬ (a = 10 ∧ b = 10) ∧ ((run ratMath idle startThenPoint).isPlaying = true → a ≤ 9 ∧ b ≤ 9) :=
  have hreach : Reachable ratMath (run ratMath idle startThenPoint) :=
    ⟨800, 1 / 2, 1 / 4, 1 / 2, 1 / 4, startThenPoint, rfl⟩
  ⟨hreach, startThenPoint_scores, score_bounds ratMath _ hreach⟩

theorem firstBounce_ball :
    (run ratMath idle firstBounce).ball =
      { x := 775, y := 225, velocityX := -(3 / 10), velocityY := 0, speed := 33 / 100 } := by
  show (gameLoop ratMath (start ratMath idle 0 (1 / 2) (1 / 4)) 1250 (1 / 2) (1 / 4)).ball = _
  rw [idle_started, gameLoop_of_playing _ _ _ _ _ rfl rfl,
    update_of_no_score _ _ _ _ _ (by norm_num [serve]) (by norm_num [serve]),
    advance_ball_of_right_hit _ _
      (by norm_num [InBox, advance, movePaddle, serve, PADDLE_HEIGHT, PADDLE_WIDTH])
      (by norm_num [InBox, advance, movePaddle, serve, PADDLE_HEIGHT, PADDLE_WIDTH])]
  norm_num [advance, movePaddle, serve, PADDLE_HEIGHT, BALL_SPEED_INCREASE]

/-- C13, the code at the failing input: the game constructed for an 800 pixel
wide container, started at time 0 with the ball launched horizontally to the
right, after the frame at 1250 ms in which the ball bounces off the middle of
the right paddle: `speed` is 0.33, `velocityX` is -0.3 and `velocityY` is 0,
so `speed^2` is not `velocityX^2 + velocityY^2`. -/
theorem bounce_breaks_speed_invariant :
    Reachable ratMath (run ratMath idle firstBounce) ∧
    (run ratMath idle firstBounce).ball.speed = 33 / 100 ∧
    (run ratMath idle firstBounce).ball.velocityX = -(3 / 10) ∧
    (run ratMath idle firstBounce).ball.velocityY = 0 ∧
    ¬ ((run ratMath idle firstBounce).ball.speed ^ 2 =
        (run ratMath idle firstBounce).ball.velocityX ^ 2 +
          (run ratMath idle firstBounce).ball.velocityY ^ 2) := by
  refine ⟨⟨800, 1 / 2, 1 / 4, 1 / 2, 1 / 4, firstBounce, rfl⟩, ?_⟩
  rw [firstBounce_ball]
  norm_num

/-- Both paddles are inside a court that is at least as high as a paddle. -/
theorem paddles_inside_step [FloorRing α] (M : JSMath α) (g : PongGame α) (e : Event α) (hfit : Fits g e)
    (hg : PADDLE_HEIGHT ≤ g.canvas.height ∧
      (0 ≤ g.paddles.left.y ∧ g.paddles.left.y ≤ g.canvas.height - PADDLE_HEIGHT) ∧
      (0 ≤ g.paddles.right.y ∧ g.paddles.right.y ≤ g.canvas.height - PADDLE_HEIGHT)) :
    PADDLE_HEIGHT ≤ (step M g e).canvas.height ∧
      (0 ≤ (step M g e).paddles.left.y ∧
        (step M g e).paddles.left.y ≤ (step M g e).canvas.height - PADDLE_HEIGHT) ∧
      (0 ≤ (step M g e).paddles.right.y ∧
        (step M g e).paddles.right.y ≤ (step M g e).canvas.height - PADDLE_HEIGHT) := by
  have hmid : ∀ h : α, PADDLE_HEIGHT ≤ h →
      0 ≤ (h - PADDLE_HEIGHT) / 2 ∧ (h - PADDLE_HEIGHT) / 2 ≤ h - PADDLE_HEIGHT := by
    intro h hh
    constructor <;> linarith
  obtain ⟨hh, hl, hr⟩ := hg
  cases e with
  | start now r1 r2 =>
    simp only [step]
    cases hp : g.isPlaying
    · rw [start_of_not_playing M g now r1 r2 hp]
      exact ⟨hh, hmid _ hh, hmid _ hh⟩
    · have e : start M g now r1 r2 = g := by simp [start, hp]
      rw [e]
      exact ⟨hh, hl, hr⟩
  | pause now =>
    obtain ⟨hc, -, -, -, hpd⟩ := pause_frame g now
    simp only [step]
    rw [hc, hpd]
    exact ⟨hh, hl, hr⟩
  | keyDown key =>
    obtain ⟨hc, -, -, -, -, -, hly, -, hry⟩ := handleKeyDown_frame g key
    simp only [step]
    rw [hc, hly, hry]
    exact ⟨hh, hl, hr⟩
  | keyUp key =>
    obtain ⟨hc, -, -, -, -, -, hly, -, hry⟩ := handleKeyUp_frame g key
    simp only [step]
    rw [hc, hly, hry]
    exact ⟨hh, hl, hr⟩
  | resize w r1 r2 =>
    obtain ⟨hw, hgrow⟩ := hfit
    simp only [step]
    cases hp : g.isPlaying
    · have e : resizeCanvas M g w r1 r2 =
          resetPositions M
            { g with
              canvas :=
                { width := unsignedLong w 300, height := unsignedLong (w * (9 / 16)) 150 }
              paddles :=
                { left := { g.paddles.left with x := PADDLE_WIDTH * 2 }
                  right :=
                    { g.paddles.right with x := unsignedLong w 300 - PADDLE_WIDTH * 3 } } }
            r1 r2 := by
        simp [resizeCanvas, hp]
      rw [e]
      exact ⟨hw, hmid _ hw, hmid _ hw⟩
    · have e : resizeCanvas M g w r1 r2 =
          { g with
            canvas :=
              { width := unsignedLong w 300, height := unsignedLong (w * (9 / 16)) 150 }
            paddles :=
              { left := { g.paddles.left with x := PADDLE_WIDTH * 2 }
                right :=
                  { g.paddles.right with x := unsignedLong w 300 - PADDLE_WIDTH * 3 } } } := by
        simp [resizeCanvas, hp]
      rw [e]
      have hle := hgrow hp
      refine ⟨hw, ⟨hl.1, ?_⟩, ⟨hr.1, ?_⟩⟩
      · show g.paddles.left.y ≤ unsignedLong (w * (9 / 16)) 150 - PADDLE_HEIGHT
        linarith [hl.2]
      · show g.paddles.right.y ≤ unsignedLong (w * (9 / 16)) 150 - PADDLE_HEIGHT
        linarith [hr.2]
  | frame t r1 r2 =>
    simp only [step]
    unfold gameLoop
    split
    · exact ⟨hh, hl, hr⟩
    · obtain ⟨hc, hp, -, -⟩ := update_frame M { g with lastTime := t } (t - g.lastTime) r1 r2
      simp only []
      rw [hc, hp]
      exact ⟨hh, ⟨movePaddle_y_nonneg _ _ _, movePaddle_y_le _ _ _ hh⟩,
        ⟨movePaddle_y_nonneg _ _ _, movePaddle_y_le _ _ _ hh⟩⟩

theorem paddles_inside_run [FloorRing α] (M : JSMath α) (es : List (Event α)) :
    ∀ g : PongGame α, FitsAll M g es →
      (PADDLE_HEIGHT ≤ g.canvas.height ∧
        (0 ≤ g.paddles.left.y ∧ g.paddles.left.y ≤ g.canvas.height - PADDLE_HEIGHT) ∧
        (0 ≤ g.paddles.right.y ∧ g.paddles.right.y ≤ g.canvas.height - PADDLE_HEIGHT)) →
      (PADDLE_HEIGHT ≤ (run M g es).canvas.height ∧
        (0 ≤ (run M g es).paddles.left.y ∧
          (run M g es).paddles.left.y ≤ (run M g es).canvas.height - PADDLE_HEIGHT) ∧
        (0 ≤ (run M g es).paddles.right.y ∧
          (run M g es).paddles.right.y ≤ (run M g es).canvas.height - PADDLE_HEIGHT)) := by
  induction es with
  | nil => intro g _ hg; exact hg
  | cons e es ih =>
    intro g hfit hg
    exact ih _ hfit.2 (paddles_inside_step M g e hfit.1 hg)

/-- For a court height `W*9/16` below `2^31`, as every `clientWidth` gives, the
canvas stores a height of at least `PADDLE_HEIGHT` when `W*9/16` is at least
`PADDLE_HEIGHT`. -/
theorem stored_height_ge [FloorRing α] (w d : α) (hw : PADDLE_HEIGHT ≤ w * (9 / 16))
    (hlt : w * (9 / 16) < 2147483648) : PADDLE_HEIGHT ≤ unsignedLong (w * (9 / 16)) d := by
  have hPH : (PADDLE_HEIGHT : α) = ((100 : ℤ) : α) := by norm_num [PADDLE_HEIGHT]
  have h0 : 0 ≤ w * (9 / 16) := le_trans (by norm_num [PADDLE_HEIGHT]) hw
  rw [unsignedLong_of_nonneg _ _ h0 hlt, hPH]
  have : (100 : ℤ) ≤ ⌊w * (9 / 16)⌋ := Int.le_floor.mpr (by rw [← hPH]; exact hw)
  exact_mod_cast this

/-- C14 (as amended): in every state reached from a construction for a
container whose court, with the height the canvas stores for `W*9/16`, is at
least as high as a paddle by any sequence of start, pause, key events, frames
and resizes in which every resize is to such a width too and, while the match
is being played, does not lower the court, both paddles' vertical positions
lie in `[0, canvas.height - PADDLE_HEIGHT]` for the current canvas height. -/
theorem paddles_inside [FloorRing α] (M : JSMath α) (w r1 r2 r3 r4 : α) (es : List (Event α))
    (hw : PADDLE_HEIGHT ≤ unsignedLong (w * (9 / 16)) 150)
    (hfit : FitsAll M (new M w r1 r2 r3 r4) es) :
    (0 ≤ (run M (new M w r1 r2 r3 r4) es).paddles.left.y ∧
      (run M (new M w r1 r2 r3 r4) es).paddles.left.y ≤
        (run M (new M w r1 r2 r3 r4) es).canvas.height - PADDLE_HEIGHT) ∧
    (0 ≤ (run M (new M w r1 r2 r3 r4) es).paddles.right.y ∧
      (run M (new M w r1 r2 r3 r4) es).paddles.right.y ≤
        (run M (new M w r1 r2 r3 r4) es).canvas.height - PADDLE_HEIGHT) := by
  have hnew : PADDLE_HEIGHT ≤ (new M w r1 r2 r3 r4).canvas.height ∧
      (0 ≤ (new M w r1 r2 r3 r4).paddles.left.y ∧
        (new M w r1 r2 r3 r4).paddles.left.y ≤
          (new M w r1 r2 r3 r4).canvas.height - PADDLE_HEIGHT) ∧
      (0 ≤ (new M w r1 r2 r3 r4).paddles.right.y ∧
        (new M w r1 r2 r3 r4).paddles.right.y ≤
          (new M w r1 r2 r3 r4).canvas.height - PADDLE_HEIGHT) := by
    have hm : 0 ≤ (unsignedLong (w * (9 / 16)) 150 - PADDLE_HEIGHT) / 2 ∧
        (unsignedLong (w * (9 / 16)) 150 - PADDLE_HEIGHT) / 2 ≤
          unsignedLong (w * (9 / 16)) 150 - PADDLE_HEIGHT := by
      constructor <;> linarith
    exact ⟨hw, hm, hm⟩
  exact (paddles_inside_run M es _ hfit hnew).2

theorem startThenGrow_fits : FitsAll ratMath idle startThenGrow := by
  refine ⟨trivial, ⟨by norm_num [PADDLE_HEIGHT], fun _ => ?_⟩, trivial, trivial⟩
  show (start ratMath idle 0 (1 / 2) (1 / 4)).canvas.height ≤ unsignedLong (1280 * (9 / 16)) 150
  rw [idle_started]
  norm_num [serve]

/-- C14, witness: the game constructed for an 800 pixel wide container,
started, resized to 1280 pixels while being played, then a frame: the court
has grown from 450 to 720 and both paddles are within `[0, 620]`. -/
theorem paddles_inside_witness :
    ((PADDLE_HEIGHT : ℚ) ≤ unsignedLong (800 * (9 / 16)) 150 ∧
      FitsAll ratMath idle startThenGrow) ∧
    (0 ≤ (run ratMath idle startThenGrow).paddles.left.y ∧
      (run ratMath idle startThenGrow).paddles.left.y ≤
        (run ratMath idle startThenGrow).canvas.height - PADDLE_HEIGHT) ∧
    (0 ≤ (run ratMath idle startThenGrow).paddles.right.y ∧
      (run ratMath idle startThenGrow).paddles.right.y ≤
        (run ratMath idle startThenGrow).canvas.height - PADDLE_HEIGHT) :=
  ⟨⟨by norm_num [PADDLE_HEIGHT], startThenGrow_fits⟩,
    paddles_inside ratMath 800 (1 / 2) (1 / 4) (1 / 2) (1 / 4) startThenGrow
      (by norm_num [PADDLE_HEIGHT]) startThenGrow_fits⟩

theorem startThenShrink_state :
    (run ratMath idle startThenShrink).paddles.left.y = 175 ∧
    (run ratMath idle startThenShrink).canvas.height = 180 := by
  show (resizeCanvas ratMath (start ratMath idle 0 (1 / 2) (1 / 4)) 320 (1 / 2) (1 / 4)).paddles.left.y
      = 175 ∧
    (resizeCanvas ratMath (start ratMath idle 0 (1 / 2) (1 / 4)) 320 (1 / 2) (1 / 4)).canvas.height
      = 180
  rw [idle_started]
  norm_num [resizeCanvas, serve]

theorem new80_state :
    (new ratMath 80 (1 / 2) (1 / 4) (1 / 2) (1 / 4)).paddles.left.y = -(55 / 2) ∧
    (new ratMath 80 (1 / 2) (1 / 4) (1 / 2) (1 / 4)).canvas.height = 45 := by
  norm_num [new, resizeCanvas, resetPositions, resetBall, PADDLE_HEIGHT]

/-- C14, counterexample: two reachable states with a paddle outside
`[0, canvas.height - PADDLE_HEIGHT]`.  A match started on the 800 by 450 court
and resized, while being played, to a 320 pixel wide container has the left
paddle at y = 175 on a court of height 180, above 180 - 100.  The game
constructed for an 80 pixel wide container has the left paddle at y = -27.5 on
a court of height 45. -/
theorem paddles_inside_fails :
    (Reachable ratMath (run ratMath idle startThenShrink) ∧
      (run ratMath idle startThenShrink).paddles.left.y = 175 ∧
      (run ratMath idle startThenShrink).canvas.height = 180 ∧
      ¬ (0 ≤ (run ratMath idle startThenShrink).paddles.left.y ∧
          (run ratMath idle startThenShrink).paddles.left.y ≤
            (run ratMath idle startThenShrink).canvas.height - PADDLE_HEIGHT)) ∧
    (Reachable ratMath (new ratMath 80 (1 / 2) (1 / 4) (1 / 2) (1 / 4)) ∧
      (new ratMath 80 (1 / 2) (1 / 4) (1 / 2) (1 / 4)).paddles.left.y = -(55 / 2) ∧
      (new ratMath 80 (1 / 2) (1 / 4) (1 / 2) (1 / 4)).canvas.height = 45 ∧
      ¬ (0 ≤ (new ratMath 80 (1 / 2) (1 / 4) (1 / 2) (1 / 4)).paddles.left.y ∧
          (new ratMath 80 (1 / 2) (1 / 4) (1 / 2) (1 / 4)).paddles.left.y ≤
            (new ratMath 80 (1 / 2) (1 / 4) (1 / 2) (1 / 4)).canvas.height - PADDLE_HEIGHT)) := by
  obtain ⟨hy, hh⟩ := startThenShrink_state
  obtain ⟨hy2, hh2⟩ := new80_state
  refine ⟨⟨⟨800, 1 / 2, 1 / 4, 1 / 2, 1 / 4, startThenShrink, rfl⟩, hy, hh, ?_⟩,
    ⟨⟨80, 1 / 2, 1 / 4, 1 / 2, 1 / 4, [], rfl⟩, hy2, hh2, ?_⟩⟩
  · rw [hy, hh]
    norm_num [PADDLE_HEIGHT]
  · rw [hy2, hh2]
    norm_num [PADDLE_HEIGHT]

/-- The bounds on the real cosine and sine of an angle within `π/8` of 0. -/
theorem launch_angle_bounds (a : ℝ) (h1 : -(Real.pi / 8) ≤ a) (h2 : a ≤ Real.pi / 8) :
    Real.cos (Real.pi / 8) ≤ Real.cos a ∧ |Real.sin a| ≤ Real.sin (Real.pi / 8) ∧
      0 < Real.cos (Real.pi / 8) := by
  have hpi := Real.pi_pos
  refine ⟨?_, ?_, ?_⟩
  · rw [← Real.cos_abs a]
    exact Real.cos_le_cos_of_nonneg_of_le_pi (abs_nonneg a) (by linarith) (abs_le.mpr ⟨h1, h2⟩)
  · rw [abs_le]
    constructor
    · rw [← Real.sin_neg]
      exact Real.sin_le_sin_of_le_of_le_pi_div_two (by linarith) (by linarith) h1
    · exact Real.sin_le_sin_of_le_of_le_pi_div_two (by linarith) (by linarith) h2
  · exact Real.cos_pos_of_mem_Ioo ⟨by linarith, by linarith⟩

/-- C15: with the real cosine, sine and pi, for every draw `r1` in `[0, 1)` the
launch angle `r1*pi/4 - pi/8` of `resetBall` lies in `[-pi/8, +pi/8]`, and the
launch direction is +1 or -1; hence after the reset
`|velocityY| <= speed*sin(pi/8)`, `|velocityX| >= speed*cos(pi/8) > 0`, and the
sign of `velocityX` is the chosen direction. -/
theorem resetBall_launch (g : PongGame ℝ) (r1 r2 : ℝ) (h0 : 0 ≤ r1) (h1 : r1 < 1) :
    (-(Real.pi / 8) ≤ r1 * Real.pi / 4 - Real.pi / 8 ∧
      r1 * Real.pi / 4 - Real.pi / 8 ≤ Real.pi / 8) ∧
    ((if r2 < 0.5 then (1 : ℝ) else -1) = 1 ∨ (if r2 < 0.5 then (1 : ℝ) else -1) = -1) ∧
    |(resetBall ⟨Real.cos, Real.sin, Real.pi⟩ g r1 r2).ball.velocityY| ≤
      (resetBall ⟨Real.cos, Real.sin, Real.pi⟩ g r1 r2).ball.speed * Real.sin (Real.pi / 8) ∧
    (resetBall ⟨Real.cos, Real.sin, Real.pi⟩ g r1 r2).ball.speed * Real.cos (Real.pi / 8) ≤
      |(resetBall ⟨Real.cos, Real.sin, Real.pi⟩ g r1 r2).ball.velocityX| ∧
    0 < (resetBall ⟨Real.cos, Real.sin, Real.pi⟩ g r1 r2).ball.speed * Real.cos (Real.pi / 8) ∧
    (r2 < 0.5 → 0 < (resetBall ⟨Real.cos, Real.sin, Real.pi⟩ g r1 r2).ball.velocityX) ∧
    (¬ r2 < 0.5 → (resetBall ⟨Real.cos, Real.sin, Real.pi⟩ g r1 r2).ball.velocityX < 0) := by
  have hpi := Real.pi_pos
  have ha1 : -(Real.pi / 8) ≤ r1 * Real.pi / 4 - Real.pi / 8 := by
    have := mul_nonneg h0 hpi.le
    linarith
  have ha2 : r1 * Real.pi / 4 - Real.pi / 8 ≤ Real.pi / 8 := by
    have := mul_le_of_le_one_left hpi.le h1.le
    linarith
  obtain ⟨hc, hsn, hc0⟩ := launch_angle_bounds _ ha1 ha2
  have hs : (0 : ℝ) < INITIAL_BALL_SPEED := by norm_num [INITIAL_BALL_SPEED]
  have hcos : 0 < Real.cos (r1 * Real.pi / 4 - Real.pi / 8) := lt_of_lt_of_le hc0 hc
  have hvy : |Real.sin (r1 * Real.pi / 4 - Real.pi / 8) * INITIAL_BALL_SPEED| ≤
      INITIAL_BALL_SPEED * Real.sin (Real.pi / 8) := by
    rw [abs_mul, abs_of_pos hs, mul_comm]
    exact mul_le_mul_of_nonneg_left hsn hs.le
  have hvx : INITIAL_BALL_SPEED * Real.cos (Real.pi / 8) ≤
      Real.cos (r1 * Real.pi / 4 - Real.pi / 8) * INITIAL_BALL_SPEED := by
    rw [mul_comm]
    exact mul_le_mul_of_nonneg_right hc hs.le
  have hpos : 0 < Real.cos (r1 * Real.pi / 4 - Real.pi / 8) * INITIAL_BALL_SPEED :=
    mul_pos hcos hs
  refine ⟨⟨ha1, ha2⟩, ?_, hvy, ?_, mul_pos hs hc0, ?_, ?_⟩
  · split_ifs
    · left; rfl
    · right; rfl
  · simp only [resetBall]
    split_ifs
    · rw [mul_one, abs_of_pos hpos]; exact hvx
    · rw [mul_neg, mul_one, abs_neg, abs_of_pos hpos]; exact hvx
  · intro hr
    simp only [resetBall, if_pos hr, mul_one]
    exact hpos
  · intro hr
    simp only [resetBall, if_neg hr, mul_neg, mul_one]
    linarith

/-- C15, witness: the draws 1/2 and 1/4 on the game constructed for an 800
pixel wide container: the ball is launched to the right, with
`|velocityX| >= speed*cos(pi/8)`. -/
theorem resetBall_launch_witness :
    ((0 : ℝ) ≤ 1 / 2 ∧ (1 / 2 : ℝ) < 1) ∧
    0 < (resetBall ⟨Real.cos, Real.sin, Real.pi⟩
      (new ⟨Real.cos, Real.sin, Real.pi⟩ 800 (1 / 2) (1 / 4) (1 / 2) (1 / 4))
      (1 / 2) (1 / 4)).ball.velocityX ∧
    (resetBall ⟨Real.cos, Real.sin, Real.pi⟩
      (new ⟨Real.cos, Real.sin, Real.pi⟩ 800 (1 / 2) (1 / 4) (1 / 2) (1 / 4))
      (1 / 2) (1 / 4)).ball.speed * Real.cos (Real.pi / 8) ≤
      |(resetBall ⟨Real.cos, Real.sin, Real.pi⟩
        (new ⟨Real.cos, Real.sin, Real.pi⟩ 800 (1 / 2) (1 / 4) (1 / 2) (1 / 4))
        (1 / 2) (1 / 4)).ball.velocityX| :=
  have h := resetBall_launch
    (new ⟨Real.cos, Real.sin, Real.pi⟩ 800 (1 / 2) (1 / 4) (1 / 2) (1 / 4)) (1 / 2) (1 / 4)
    (by norm_num) (by norm_num)
  ⟨⟨by norm_num, by norm_num⟩, h.2.2.2.2.2.1 (by norm_num), h.2.2.2.1⟩

end Claims

end Pong
